import Mathlib

/-!
# QUIC vs TCP over LTE: verification of the experiment scripts

A shallow embedding of the four ns-3 experiment scripts

* `Throughput-over-LTE.cc`
* `Simulations/DLT-QUIC-over-LTE.cc`
* `Simulations/2TCPs-Fairness-over-LTE.cc`
* `FailedAttempts/TwoQuicConnectionsSameReceiver.cc`

A `std::string` is a `List Char` (one `Char` per byte), a C++ `int` is an `Int`
kept inside the signed 32-bit range, and the ways a C++ call can end other than
by returning (a call of `exit`, an exception nobody catches, undefined
behaviour) are the constructors of `Outcome`.
-/

namespace QuicLte

/-! ## Outcomes of a C++ call -/

/-- The two exceptions `std::stoi` throws. -/
inductive StoiError
  | invalid_argument
  | out_of_range
  deriving DecidableEq, Repr

/-- How a call ends: it returns a value, it calls `exit (code)`, it throws an
exception that nothing catches, or it runs into undefined behaviour. -/
inductive Outcome (α : Type)
  | ret (v : α)
  | exit (code : Int)
  | uncaught (e : StoiError)
  | undefined
  deriving DecidableEq, Repr

/-! ## `int` arithmetic -/

/-- Largest value of a 32-bit `int`. -/
def INT_MAX : Int := 2147483647

/-- Smallest value of a 32-bit `int`. -/
def INT_MIN : Int := -2147483648

/-- Two's complement reduction of an integer into the range of a 32-bit `int`
(what the `imul` instruction leaves in the register when a product overflows). -/
def wrapInt32 (v : Int) : Int := (v + 2147483648) % 4294967296 - 2147483648

/-! ## `std::stoi` -/

/-- The C locale's `isspace`. -/
def isspace (c : Char) : Bool :=
  c.toNat = 32 || (9 ≤ c.toNat && c.toNat ≤ 13)

/-- The test `c >= '0' && c <= '9'` on character codes. -/
def isdigit (c : Char) : Bool :=
  decide ('0'.toNat ≤ c.toNat) && decide (c.toNat ≤ '9'.toNat)

/-- Value of a run of decimal digits, most significant first, accumulated the
way `strtol` does. -/
def digitsValue (ds : List Char) : Nat :=
  ds.foldl (fun acc c => acc * 10 + (c.toNat - '0'.toNat)) 0

/-- Optional sign in front of the digits: whether it is a minus, and the rest. -/
def stoiSign : List Char → Bool × List Char
  | '-' :: rest => (true, rest)
  | '+' :: rest => (false, rest)
  | rest => (false, rest)

/-- The call `std::stoi (s)` (base 10): skip leading white space, read an optional
sign and the longest run of digits, ignore whatever follows. No digit at all
throws `invalid_argument`; a value outside the range of `int` throws
`out_of_range`. -/
def stoi (s : List Char) : Except StoiError Int :=
  let signed := stoiSign (s.dropWhile isspace)
  let ds := signed.2.takeWhile isdigit
  if ds = [] then
    Except.error StoiError.invalid_argument
  else
    let v : Int := if signed.1 then -(digitsValue ds : Int) else (digitsValue ds : Int)
    if INT_MIN ≤ v ∧ v ≤ INT_MAX then Except.ok v else Except.error StoiError.out_of_range

/-! ## `calcFileSize` (DLT-QUIC-over-LTE.cc, lines 208-229) -/

/-- The `switch (unit)` of `calcFileSize`: the multiplier of a unit letter, or
`none` for the `default:` branch. -/
def unitMultiplier (unit : Char) : Option Int :=
  if unit = 'K' then some 1024
  else if unit = 'M' then some (1024 * 1024)
  else none

/-- The function `calcFileSize`.

```
sizeStr.pop_back();
char unit = sizeStr.back();
if(unit >= '0' && unit <= '9') return stoi(sizeStr);
sizeStr.pop_back();
int to_multiply = 1;
switch(unit) { case 'K': 1024; case 'M': 1024*1024; default: exit(1); }
return (stoi(sizeStr) * to_multiply);
```

`pop_back` and `back` on an empty string are undefined behaviour. The product is
an `int` product: when it overflows, the value kept is the one `wrapInt32` gives. -/
def calcFileSize (sizeStr : List Char) : Outcome Int :=
  if sizeStr = [] then Outcome.undefined
  else
    let sizeStr1 := sizeStr.dropLast
    match sizeStr1.getLast? with
    | none => Outcome.undefined
    | some unit =>
      if isdigit unit then
        match stoi sizeStr1 with
        | Except.ok v => Outcome.ret v
        | Except.error e => Outcome.uncaught e
      else
        let sizeStr2 := sizeStr1.dropLast
        match unitMultiplier unit with
        | none => Outcome.exit 1
        | some to_multiply =>
          match stoi sizeStr2 with
          | Except.ok v => Outcome.ret (wrapInt32 (v * to_multiply))
          | Except.error e => Outcome.uncaught e

/-- The decimal digit a character stands for. -/
def digitOf (c : Char) : Nat := c.toNat - '0'.toNat

/-- Meaning of a numeral: `d` is a non-empty string of decimal digits whose
positional value (`Nat.ofDigits`, least significant digit first) is `n`. -/
def IsNumeral (d : List Char) (n : Nat) : Prop :=
  d ≠ [] ∧ (∀ c ∈ d, isdigit c = true) ∧ Nat.ofDigits 10 (d.reverse.map digitOf) = n

/-- Carry on with the value a call returned; every other ending is passed on. -/
def Outcome.map {α β : Type} (f : α → β) : Outcome α → Outcome β
  | Outcome.ret v => Outcome.ret (f v)
  | Outcome.exit code => Outcome.exit code
  | Outcome.uncaught e => Outcome.uncaught e
  | Outcome.undefined => Outcome.undefined

/-- Conversion of an `int` argument to the `uint64_t` that the constructor of
`UintegerValue` takes. -/
def UintegerValue (v : Int) : Nat := (v % 18446744073709551616).toNat

/-! ## Standard output -/

/-- One line written as `std::cout << before << value << after << std::endl`:
`value` is the number handed to the stream, not the digits it is printed with. -/
structure StdoutLine where
  before : String
  value : ℚ
  after : String
  deriving DecidableEq

/-! ## Topology and flows -/

/-- The nodes the scripts name. `pgw` is `epcHelper->GetPgwNode ()`; `enbNodes0`
stands for `enbNodes.Get (0)`, and likewise for the other containers. -/
inductive Node
  | pgw
  | remoteHost
  | tcpRemoteHost
  | quicRemoteHost
  | enbNodes0
  | ueNodes0
  | tcpUeNodes0
  | quicUeNodes0
  | nodes0
  | nodes1
  deriving DecidableEq, Repr

/-- What creates a link: `PointToPointHelper::Install`, the EPC helper when an
eNodeB device is installed (the S1-U/S5 path between the eNodeB and the PGW), or
`LteHelper::Attach` of a UE device to an eNodeB. -/
inductive LinkKind
  | pointToPoint
  | epcCore
  | enbAttach
  deriving DecidableEq, Repr

/-- A link between two nodes. -/
structure Link where
  kind : LinkKind
  a : Node
  b : Node
  deriving DecidableEq, Repr

/-- The link `l` joins `x` and `y`, in either direction. -/
def Link.joins (l : Link) (x y : Node) : Prop :=
  (l.a = x ∧ l.b = y) ∨ (l.a = y ∧ l.b = x)

/-- Some link of `links` joins `x` and `y`. -/
def Adjacent (links : List Link) (x y : Node) : Prop :=
  ∃ l ∈ links, l.joins x y

/-- The node `y` can be reached from `x` through a composition of links. -/
def Connected (links : List Link) (x y : Node) : Prop :=
  Relation.ReflTransGen (Adjacent links) x y

/-- A `BulkSendApplication` as a script configures it. `destination` is the node
whose assigned address is the remote address (`none` when the index given to
`GetAddress` is out of range), `node` the node it is installed on; times are in
seconds. -/
structure Sender where
  socketFactory : String
  destination : Option Node
  destinationPort : Nat
  MaxBytes : Nat
  SendSize : Nat
  node : Node
  start : ℚ
  stop : ℚ
  deriving DecidableEq

/-- A `PacketSink` application as a script configures it. -/
structure Sink where
  socketFactory : String
  port : Nat
  node : Node
  start : ℚ
  stop : ℚ
  deriving DecidableEq

/-- A flow: a bulk sender and the sink set up for it. -/
structure Flow where
  sender : Sender
  sink : Sink
  deriving DecidableEq

/-- What a script hands to the simulator: links, flows and the argument of
`Simulator::Stop`. -/
structure Experiment where
  links : List Link
  flows : List Flow
  stopTime : ℚ

/-- The call `ifaces.GetAddress (i)` on the interfaces assigned to a list of
devices, given as the nodes that own them. -/
def GetAddress (ifaces : List Node) (i : Nat) : Option Node := ifaces.get? i

/-- The activation window of an application lies inside the run. -/
def windowOk (start stop stopTime : ℚ) : Prop :=
  0 ≤ start ∧ start ≤ stop ∧ stop ≤ stopTime

/-! ## Throughput arithmetic -/

/-- The expression `(totalBytesReceived * 8.0) / (simulationDuration * 1000 * 1000)`
in `double` arithmetic. `rnd` is the rounding of an exact result to a `double`:
it is applied to the conversion of the `uint64_t` count and to each operation. -/
def throughput (rnd : ℚ → ℚ) (simulationDuration : ℚ) (totalBytesReceived : Nat) : ℚ :=
  rnd (rnd (rnd (totalBytesReceived : ℚ) * 8) / rnd (rnd (simulationDuration * 1000) * 1000))

/-! ## Throughput-over-LTE.cc -/

namespace Throughput

/-- The value of `simulationDuration`. -/
def simulationDuration : ℚ := 40

/-- The value of `dlPort`. -/
def dlPort : Nat := 1100

/-- The interfaces `ueIpIface`, assigned to `ueLteDevs`. -/
def ueIpIface : List Node := [Node.ueNodes0]

/-- Links: `p2ph.Install (pgw, remoteHost)` (line 82), `InstallEnbDevice`
(line 121), `Attach (ueLteDevs.Get (i), enbLteDevs.Get (0))` (line 150). -/
def links : List Link :=
  [⟨LinkKind.pointToPoint, Node.pgw, Node.remoteHost⟩,
   ⟨LinkKind.epcCore, Node.pgw, Node.enbNodes0⟩,
   ⟨LinkKind.enbAttach, Node.ueNodes0, Node.enbNodes0⟩]

/-- The TCP flow (lines 155-172). -/
def flow : Flow :=
  { sender :=
      { socketFactory := "ns3::TcpSocketFactory"
        destination := GetAddress ueIpIface 0
        destinationPort := dlPort
        MaxBytes := UintegerValue 0
        SendSize := UintegerValue 512
        node := Node.remoteHost
        start := 0
        stop := simulationDuration }
    sink :=
      { socketFactory := "ns3::TcpSocketFactory"
        port := dlPort
        node := Node.ueNodes0
        start := 0
        stop := simulationDuration } }

/-- The experiment of this script. -/
def experiment : Experiment :=
  { links := links, flows := [flow], stopTime := simulationDuration }

/-- Lines 182-188 of `main`: the report, given the value of `tcpSink->GetTotalRx ()`. -/
def main (rnd : ℚ → ℚ) (tcpTotalBytesReceived : Nat) : List StdoutLine × Int :=
  let tcpThroughput := throughput rnd simulationDuration tcpTotalBytesReceived
  ([⟨"Total Bytes Received: ", tcpTotalBytesReceived, ""⟩,
    ⟨"Throughput: ", tcpThroughput, " Mbps"⟩], 0)

end Throughput

/-! ## Simulations/DLT-QUIC-over-LTE.cc -/

namespace DLT

/-- The value of `simulationDuration`. -/
def simulationDuration : ℚ := 40

/-- The default of the flag `--fileSize`. -/
def fileSize : List Char := "1MB".toList

/-- The value of `dlPort`. -/
def dlPort : Nat := 1100

/-- The interfaces `ueIpIface`, assigned to `ueLteDevs`. -/
def ueIpIface : List Node := [Node.ueNodes0]

/-- Line 35: `calculatedFileSize = calcFileSize (fileSize)`, where `fileSize` is
the flag value when `--fileSize` is given and the default otherwise. -/
def calculatedFileSize (flag : Option (List Char)) : Outcome Int :=
  calcFileSize (flag.getD fileSize)

/-- Line 169: the attribute `MaxBytes` of the sender,
`UintegerValue (calculatedFileSize)`. -/
def MaxBytes (flag : Option (List Char)) : Outcome Nat :=
  (calculatedFileSize flag).map UintegerValue

/-- Links: `p2ph.Install (pgw, remoteHost)` (line 90), `InstallEnbDevice`
(line 129), `Attach (ueLteDevs.Get (i), enbLteDevs.Get (0))` (line 158). -/
def links : List Link :=
  [⟨LinkKind.pointToPoint, Node.pgw, Node.remoteHost⟩,
   ⟨LinkKind.epcCore, Node.pgw, Node.enbNodes0⟩,
   ⟨LinkKind.enbAttach, Node.ueNodes0, Node.enbNodes0⟩]

/-- The QUIC flow (lines 163-181), for a returned `calculatedFileSize`. -/
def flow (calculatedFileSize : Int) : Flow :=
  { sender :=
      { socketFactory := "ns3::QuicSocketFactory"
        destination := GetAddress ueIpIface 0
        destinationPort := dlPort
        MaxBytes := UintegerValue calculatedFileSize
        SendSize := UintegerValue 512
        node := Node.remoteHost
        start := 1 / 100
        stop := simulationDuration }
    sink :=
      { socketFactory := "ns3::QuicSocketFactory"
        port := dlPort
        node := Node.ueNodes0
        start := 0
        stop := simulationDuration } }

/-- The experiment of this script, for a returned `calculatedFileSize`. -/
def experiment (calculatedFileSize : Int) : Experiment :=
  { links := links, flows := [flow calculatedFileSize], stopTime := simulationDuration }

/-- One invocation of the `Rx` trace of a packet sink: the size of the packet
handed over and the reading `Simulator::Now ().GetSeconds ()` at that moment. -/
structure Delivery where
  packetSize : Nat
  now : ℚ
  deriving DecidableEq

/-- Initial value of the global `lastArrivalTime`. -/
def lastArrivalTime : ℚ := -1

/-- The callback (lines 203-206): the global is overwritten with the clock
reading; the packet and the sender address are not looked at. -/
def PacketArrivalCallback (delivery : Delivery) (_lastArrivalTime : ℚ) : ℚ :=
  delivery.now

/-- The effect of `Simulator::Run ()` on the global: the callback runs once for
each delivery, in order. -/
def Run (deliveries : List Delivery) (lastArrivalTime : ℚ) : ℚ :=
  deliveries.foldl (fun t delivery => PacketArrivalCallback delivery t) lastArrivalTime

/-- Lines 195-200 of `main`: standard output and the return value. -/
def report (lastArrivalTime : ℚ) : List StdoutLine × Int :=
  if lastArrivalTime = -1 then
    ([⟨"ERROR: Failed to track arrival times. [lastArrivalTime = ", lastArrivalTime, "]"⟩], -1)
  else
    ([⟨"", lastArrivalTime, ""⟩], 0)

/-- The function `main`: the file size is computed first, then the simulation
runs with the deliveries it produces, then the report is written. -/
def main (flag : Option (List Char)) (deliveries : List Delivery) :
    Outcome (List StdoutLine × Int) :=
  (calculatedFileSize flag).map (fun _ => report (Run deliveries lastArrivalTime))

end DLT

/-! ## Simulations/2TCPs-Fairness-over-LTE.cc -/

namespace Fairness

/-- The value of `simulationDuration`. -/
def simulationDuration : ℚ := 40

/-- The value of `dlPort1`. -/
def dlPort1 : Nat := 1100

/-- The value of `dlPort2`. -/
def dlPort2 : Nat := 1200

/-- The value of `dlPortQuic`. -/
def dlPortQuic : Nat := 1600

/-- The interfaces `ueIpIface`, assigned to `allUeLteDevs`: the devices of
`tcpUeLteDevs`, then those of `quicUeLteDevs` (lines 147-149). -/
def ueIpIface : List Node := [Node.tcpUeNodes0] ++ [Node.quicUeNodes0]

/-- Links: `p2ph.Install (pgw, tcpRemoteHost)` (line 88), `InstallEnbDevice`
(line 130), and the two `Attach` loops (lines 170 and 175). No statement of the
script creates a device or a link on `quicRemoteHost`. -/
def links : List Link :=
  [⟨LinkKind.pointToPoint, Node.pgw, Node.tcpRemoteHost⟩,
   ⟨LinkKind.epcCore, Node.pgw, Node.enbNodes0⟩,
   ⟨LinkKind.enbAttach, Node.tcpUeNodes0, Node.enbNodes0⟩,
   ⟨LinkKind.enbAttach, Node.quicUeNodes0, Node.enbNodes0⟩]

/-- The first TCP flow (lines 181-193). -/
def flow1 : Flow :=
  { sender :=
      { socketFactory := "ns3::TcpSocketFactory"
        destination := GetAddress ueIpIface 0
        destinationPort := dlPort1
        MaxBytes := UintegerValue 0
        SendSize := UintegerValue 512
        node := Node.tcpRemoteHost
        start := 0
        stop := simulationDuration }
    sink :=
      { socketFactory := "ns3::TcpSocketFactory"
        port := dlPort1
        node := Node.tcpUeNodes0
        start := 0
        stop := simulationDuration } }

/-- The second TCP flow (lines 197-209). -/
def flow2 : Flow :=
  { sender :=
      { socketFactory := "ns3::TcpSocketFactory"
        destination := GetAddress ueIpIface 0
        destinationPort := dlPort2
        MaxBytes := UintegerValue 0
        SendSize := UintegerValue 512
        node := Node.tcpRemoteHost
        start := 0
        stop := simulationDuration }
    sink :=
      { socketFactory := "ns3::TcpSocketFactory"
        port := dlPort2
        node := Node.tcpUeNodes0
        start := 0
        stop := simulationDuration } }

/-- The QUIC flow (lines 213-230). -/
def flowQuic : Flow :=
  { sender :=
      { socketFactory := "ns3::QuicSocketFactory"
        destination := GetAddress ueIpIface 0
        destinationPort := dlPortQuic
        MaxBytes := UintegerValue 0
        SendSize := UintegerValue 512
        node := Node.quicRemoteHost
        start := 2
        stop := simulationDuration }
    sink :=
      { socketFactory := "ns3::QuicSocketFactory"
        port := dlPortQuic
        node := Node.quicUeNodes0
        start := 0
        stop := simulationDuration } }

/-- The experiment of this script. -/
def experiment : Experiment :=
  { links := links, flows := [flow1, flow2, flowQuic], stopTime := simulationDuration }

/-- The three sink applications `sinkApps1`, `sinkApps2`, `sinkAppsQuic`. -/
inductive SinkApp
  | sinkApps1
  | sinkApps2
  | sinkAppsQuic
  deriving DecidableEq, Repr

/-- A packet handed to one of the sink applications during the run. -/
structure Delivery where
  sink : SinkApp
  packetSize : Nat
  deriving DecidableEq, Repr

/-- The call `GetTotalRx ()` on a sink after the run: a `PacketSink` adds the size
of every packet it reads itself to its own `uint64_t` counter. -/
def GetTotalRx (run : List Delivery) (sink : SinkApp) : Nat :=
  ((run.filter (fun d => decide (d.sink = sink))).map Delivery.packetSize).sum
    % 18446744073709551616

/-- Lines 241-255 of `main`: the report after a run. -/
def main (rnd : ℚ → ℚ) (run : List Delivery) : List StdoutLine × Int :=
  let tcpTotalBytesReceived1 := GetTotalRx run SinkApp.sinkApps1
  let tcpThroughput1 := throughput rnd simulationDuration tcpTotalBytesReceived1
  let tcpTotalBytesReceived2 := GetTotalRx run SinkApp.sinkApps2
  let tcpThroughput2 := throughput rnd simulationDuration tcpTotalBytesReceived2
  let quicTotalBytesReceived := GetTotalRx run SinkApp.sinkAppsQuic
  let quicThroughput := throughput rnd simulationDuration quicTotalBytesReceived
  ([⟨"TCP FLOW 1 THROUGHTPUT: ", tcpThroughput1, ""⟩,
    ⟨"TCP FLOW 2 THROUGHTPUT: ", tcpThroughput2, ""⟩,
    ⟨"QUIC FLOW 2 THROUGHTPUT: ", quicThroughput, ""⟩], 0)

/-- Position in standard output of the line that reports a sink. -/
def SinkApp.line : SinkApp → Nat
  | SinkApp.sinkApps1 => 0
  | SinkApp.sinkApps2 => 1
  | SinkApp.sinkAppsQuic => 2

/-- The line of standard output that reports a sink. -/
def reported (rnd : ℚ → ℚ) (run : List Delivery) (sink : SinkApp) : Option StdoutLine :=
  (main rnd run).1.get? sink.line

end Fairness

/-! ## FailedAttempts/TwoQuicConnectionsSameReceiver.cc -/

namespace TwoQuic

/-- The value of `dlPort1`. -/
def dlPort1 : Nat := 1100

/-- The value of `dlPort2`. -/
def dlPort2 : Nat := 1200

/-- The interfaces `i`, assigned to `devices` of `nodes`. -/
def i : List Node := [Node.nodes0, Node.nodes1]

/-- Links: `pointToPoint.Install (nodes)` (line 56). -/
def links : List Link :=
  [⟨LinkKind.pointToPoint, Node.nodes0, Node.nodes1⟩]

/-- The first QUIC flow (lines 73-86). -/
def flow1 : Flow :=
  { sender :=
      { socketFactory := "ns3::QuicSocketFactory"
        destination := GetAddress i 1
        destinationPort := dlPort1
        MaxBytes := UintegerValue 0
        SendSize := UintegerValue 512
        node := Node.nodes0
        start := 2
        stop := 10 }
    sink :=
      { socketFactory := "ns3::QuicSocketFactory"
        port := dlPort1
        node := Node.nodes1
        start := 0
        stop := 10 } }

/-- The second QUIC flow (lines 90-103). -/
def flow2 : Flow :=
  { sender :=
      { socketFactory := "ns3::QuicSocketFactory"
        destination := GetAddress i 1
        destinationPort := dlPort2
        MaxBytes := UintegerValue 0
        SendSize := UintegerValue 512
        node := Node.nodes0
        start := 2
        stop := 10 }
    sink :=
      { socketFactory := "ns3::QuicSocketFactory"
        port := dlPort2
        node := Node.nodes1
        start := 0
        stop := 10 } }

/-- The experiment of this script. -/
def experiment : Experiment :=
  { links := links, flows := [flow1, flow2], stopTime := 10 }

end TwoQuic

/-- The four experiments; the latency-tracking one depends on the file size that
`calcFileSize` returned. -/
def experiments (calculatedFileSize : Int) : List Experiment :=
  [Throughput.experiment, DLT.experiment calculatedFileSize, Fairness.experiment,
   TwoQuic.experiment]

/-- The flow has its window, for the sender and for the sink, inside the run. -/
def Flow.windowsOk (f : Flow) (stopTime : ℚ) : Prop :=
  windowOk f.sender.start f.sender.stop stopTime ∧ windowOk f.sink.start f.sink.stop stopTime

/-- Two flows meet at one endpoint: the senders have the same destination
address, or the sinks are installed on the same node. -/
def Flow.sharesEndpoint (f g : Flow) : Prop :=
  f.sender.destination = g.sender.destination ∨ f.sink.node = g.sink.node

/-- Two flows are told apart by their port, on the sender side and on the sink
side. -/
def Flow.portsDiffer (f g : Flow) : Prop :=
  f.sender.destinationPort ≠ g.sender.destinationPort ∧ f.sink.port ≠ g.sink.port

/-- What a call of `stoi` contributes to the ending of its caller: the value, or
the exception, which no caller catches. -/
def Outcome.ofStoi : Except StoiError Int → Outcome Int
  | Except.ok v => Outcome.ret v
  | Except.error e => Outcome.uncaught e

/-- All flows of the four scripts. -/
def allFlows (calculatedFileSize : Int) : List Flow :=
  (experiments calculatedFileSize).flatMap Experiment.flows

/-- The sender addresses the sink: the destination address is the one assigned to
the node the sink is installed on, the destination port is the port the sink
listens on, and both use the same socket factory. -/
def Flow.endpointsMatch (f : Flow) : Prop :=
  f.sender.destination = some f.sink.node ∧
  f.sender.destinationPort = f.sink.port ∧
  f.sender.socketFactory = f.sink.socketFactory

/-! ## Error model on the link between the PGW and the remote host -/

/-- The attributes of a `RateErrorModel` that the scripts set; `ErrorRate` holds
the value of the `double` it was given. -/
structure RateErrorModel where
  ErrorRate : ℚ
  ErrorUnit : String
  deriving DecidableEq

/-- The value of the `double` literal `0.005`: the `double` nearest to 5/1000,
which is 5764607523034235 / 2^60 (in hexadecimal notation, `0x1.47ae147ae147bp-8`). -/
def DoubleValue_0_005 : ℚ := 5764607523034235 / 1152921504606846976

/-- The object `CreateObject<RateErrorModel> ()` makes, with the defaults of the
two attributes. -/
def CreateRateErrorModel : RateErrorModel :=
  { ErrorRate := 0, ErrorUnit := "ERROR_UNIT_BYTE" }

/-- A point-to-point device: the node it sits on and its attribute
`ReceiveErrorModel`, a pointer given as the position of the object among those
the script created, or `none` while unset. -/
structure PointToPointNetDevice where
  node : Node
  ReceiveErrorModel : Option Nat
  deriving DecidableEq

/-- The call `p2ph.Install (a, b)`: one device on each node, in this order. -/
def Install (a b : Node) : List PointToPointNetDevice :=
  [{ node := a, ReceiveErrorModel := none }, { node := b, ReceiveErrorModel := none }]

/-- The call `devices.Get (i)->SetAttribute ("ReceiveErrorModel", PointerValue (em))`. -/
def SetReceiveErrorModel :
    List PointToPointNetDevice → Nat → Nat → List PointToPointNetDevice
  | [], _, _ => []
  | dev :: rest, 0, em => { dev with ReceiveErrorModel := some em } :: rest
  | dev :: rest, i + 1, em => dev :: SetReceiveErrorModel rest i em

/-- The error models a script created and the devices of its point-to-point link. -/
structure ErrorSetup where
  objects : List RateErrorModel
  internetDevices : List PointToPointNetDevice

/-- The statements that the three LTE scripts share word for word (lines 82-89 of
Throughput-over-LTE.cc, 90-97 of DLT-QUIC-over-LTE.cc, 88-95 of
2TCPs-Fairness-over-LTE.cc), for the node given to `p2ph.Install` next to `pgw`:
one `RateErrorModel` is created, its rate and unit are set, and the pointer to it
is stored in both devices. -/
def lteErrorSetup (host : Node) : ErrorSetup :=
  let internetDevices := Install Node.pgw host
  let em : Nat := 0
  let object : RateErrorModel :=
    { { CreateRateErrorModel with ErrorRate := DoubleValue_0_005 } with
      ErrorUnit := "ERROR_UNIT_PACKET" }
  { objects := [object]
    internetDevices := SetReceiveErrorModel (SetReceiveErrorModel internetDevices 0 em) 1 em }

/-- The error setup of Throughput-over-LTE.cc. -/
def Throughput.errorSetup : ErrorSetup := lteErrorSetup Node.remoteHost

/-- The error setup of DLT-QUIC-over-LTE.cc. -/
def DLT.errorSetup : ErrorSetup := lteErrorSetup Node.remoteHost

/-- The error setup of 2TCPs-Fairness-over-LTE.cc. -/
def Fairness.errorSetup : ErrorSetup := lteErrorSetup Node.tcpRemoteHost

/-- The error model a device receives through, looked up in the objects created. -/
def ErrorSetup.modelOf (s : ErrorSetup) (dev : PointToPointNetDevice) : Option RateErrorModel :=
  dev.ReceiveErrorModel.bind s.objects.get?

/-! ## Rounding to `double` -/

/-- The rational `q` is the value of a finite `double`: a 53-bit significand times
a power of two in the exponent range of the format. -/
def IsDouble (q : ℚ) : Prop :=
  ∃ m e : Int, |m| < 2 ^ 53 ∧ -1074 ≤ e ∧ e ≤ 971 ∧ q = (m : ℚ) * (2 : ℚ) ^ e

/-- What the theorems on reported throughput use of the rounding of `double`
arithmetic: it is monotone, and a value that is a `double` is left as it is. Both
hold of every IEEE 754 rounding mode. -/
structure IsRounding (rnd : ℚ → ℚ) : Prop where
  mono : Monotone rnd
  fixes : ∀ q, IsDouble q → rnd q = q

/-- The unit suffixes of the documented format `10B`, `10KB`, `10MB`, each with the
number of bytes it stands for. -/
def acceptedUnits : List (List Char × Int) :=
  [("B".toList, 1), ("KB".toList, 1024), ("MB".toList, 1048576)]

/-! # Theorems -/

/-! ## Lemmas on `stoi` and `calcFileSize` -/

theorem isdigit_not_isspace {c : Char} (h : isdigit c = true) : isspace c = false := by
  simp only [isdigit, Bool.and_eq_true, decide_eq_true_eq] at h
  have h0 : '0'.toNat = 48 := rfl
  have h9 : '9'.toNat = 57 := rfl
  rw [h0, h9] at h
  simp only [isspace, Bool.or_eq_false_iff, Bool.and_eq_false_iff, decide_eq_false_iff_not]
  omega

theorem isdigit_stoiSign {c : Char} (h : isdigit c = true) (rest : List Char) :
    stoiSign (c :: rest) = (false, c :: rest) := by
  have hm : c ≠ '-' := by
    rintro rfl
    exact absurd h (by decide)
  have hp : c ≠ '+' := by
    rintro rfl
    exact absurd h (by decide)
  unfold stoiSign
  split
  · rename_i heq
    simp only [List.cons.injEq] at heq
    exact absurd heq.1 hm
  · rename_i heq
    simp only [List.cons.injEq] at heq
    exact absurd heq.1 hp
  · rfl

theorem foldl_digits_acc (ds : List Char) (acc : Nat) :
    ds.foldl (fun a c => a * 10 + (c.toNat - '0'.toNat)) acc
      = acc * 10 ^ ds.length + Nat.ofDigits 10 (ds.reverse.map digitOf) := by
  induction ds generalizing acc with
  | nil => simp
  | cons c cs ih =>
    rw [List.foldl_cons, ih, List.reverse_cons, List.map_append, Nat.ofDigits_append]
    simp only [List.length_cons, List.map_cons, List.map_nil, Nat.ofDigits_singleton,
      List.length_map, List.length_reverse, digitOf]
    ring

theorem digitsValue_eq_ofDigits (ds : List Char) :
    digitsValue ds = Nat.ofDigits 10 (ds.reverse.map digitOf) := by
  unfold digitsValue
  rw [foldl_digits_acc]
  simp

/-- On a numeral whose value fits an `int`, `stoi` returns that value. -/
theorem stoi_numeral {d : List Char} {n : Nat} (hd : IsNumeral d n)
    (hn : (n : Int) ≤ INT_MAX) : stoi d = Except.ok (n : Int) := by
  obtain ⟨hne, hall, hval⟩ := hd
  obtain ⟨c, rest, rfl⟩ := List.exists_cons_of_ne_nil hne
  have hc : isdigit c = true := hall c (List.mem_cons_self _ _)
  have hdrop : (c :: rest).dropWhile isspace = c :: rest := by
    rw [List.dropWhile_cons, isdigit_not_isspace hc]
    simp
  have htake : (c :: rest).takeWhile isdigit = c :: rest :=
    List.takeWhile_eq_self_iff.mpr hall
  have hv : digitsValue (c :: rest) = n := by rw [digitsValue_eq_ofDigits, hval]
  unfold stoi
  simp only [hdrop, isdigit_stoiSign hc, htake, hv]
  have hmin : INT_MIN ≤ (n : Int) := by
    unfold INT_MIN
    omega
  simp [hmin, hn]

theorem wrapInt32_of_range {v : Int} (h1 : INT_MIN ≤ v) (h2 : v ≤ INT_MAX) :
    wrapInt32 v = v := by
  unfold wrapInt32
  unfold INT_MIN at h1
  unfold INT_MAX at h2
  omega

/-- When the character before the last one is a digit, `calcFileSize` is `stoi`
of the input without its last character. -/
theorem calcFileSize_digit_before_last (s : List Char) (u c : Char)
    (hu : s.getLast? = some u) (hd : isdigit u = true) :
    calcFileSize (s ++ [c]) =
      match stoi s with
      | Except.ok v => Outcome.ret v
      | Except.error e => Outcome.uncaught e := by
  unfold calcFileSize
  simp [hu, hd]

/-- When the character before the last one is not a digit, `calcFileSize` looks
it up as a unit and applies `stoi` to what precedes it. -/
theorem calcFileSize_unit_before_last (s : List Char) (u c : Char)
    (hd : isdigit u = false) :
    calcFileSize (s ++ [u, c]) =
      match unitMultiplier u with
      | none => Outcome.exit 1
      | some m =>
        match stoi s with
        | Except.ok v => Outcome.ret (wrapInt32 (v * m))
        | Except.error e => Outcome.uncaught e := by
  have h1 : (s ++ [u, c]).dropLast = s ++ [u] := by
    rw [show s ++ [u, c] = (s ++ [u]) ++ [c] by simp, List.dropLast_concat]
  unfold calcFileSize
  simp [h1, hd]

theorem IsNumeral.getLast_isdigit {d : List Char} {n : Nat} (hd : IsNumeral d n) :
    ∃ u, d.getLast? = some u ∧ isdigit u = true := by
  obtain ⟨hne, hall, _⟩ := hd
  refine ⟨d.getLast hne, List.getLast?_eq_getLast _ hne, hall _ (List.getLast_mem hne)⟩

theorem digitChar_isdigit {k : Nat} (hk : k < 10) :
    isdigit (Nat.digitChar k) = true ∧ digitOf (Nat.digitChar k) = k := by
  interval_cases k <;> exact ⟨by decide, by decide⟩

theorem toDigitsCore_numeral (n : Nat) :
    ∀ (fuel : Nat) (ds : List Char), n < fuel →
      ∃ pre : List Char, Nat.toDigitsCore 10 fuel n ds = pre ++ ds ∧ IsNumeral pre n := by
  induction n using Nat.strong_induction_on with
  | _ n ih =>
    intro fuel ds hfuel
    obtain ⟨f, rfl⟩ : ∃ f, fuel = f + 1 := ⟨fuel - 1, by omega⟩
    have hmod : n % 10 < 10 := Nat.mod_lt _ (by norm_num)
    obtain ⟨hdig, hval⟩ := digitChar_isdigit hmod
    unfold Nat.toDigitsCore
    simp only
    split_ifs with h0
    · refine ⟨[Nat.digitChar (n % 10)], rfl, by simp, ?_, ?_⟩
      · intro c hc
        rw [List.mem_singleton] at hc
        rw [hc]
        exact hdig
      · simp only [List.reverse_singleton, List.map_cons, List.map_nil, Nat.ofDigits_singleton,
          hval]
        omega
    · have hlt : n / 10 < n := by omega
      obtain ⟨pre, hpre, hne, hall, hv⟩ := ih (n / 10) hlt f (Nat.digitChar (n % 10) :: ds)
        (by omega)
      refine ⟨pre ++ [Nat.digitChar (n % 10)], by rw [hpre]; simp, by simp, ?_, ?_⟩
      · intro c hc
        rw [List.mem_append, List.mem_singleton] at hc
        rcases hc with hc | hc
        · exact hall c hc
        · rw [hc]
          exact hdig
      · rw [List.reverse_append, List.reverse_singleton, List.singleton_append, List.map_cons,
          Nat.ofDigits_cons, hv, hval]
        omega

/-- The decimal numeral that `Nat.repr` prints for `n` is a numeral of `n`. -/
theorem IsNumeral_toDigits (n : Nat) : IsNumeral (Nat.toDigits 10 n) n := by
  obtain ⟨pre, hpre, hnum⟩ := toDigitsCore_numeral n (n + 1) [] (by omega)
  unfold Nat.toDigits
  rw [hpre, List.append_nil]
  exact hnum

theorem stoi_range {s : List Char} {v : Int} (h : stoi s = Except.ok v) :
    INT_MIN ≤ v ∧ v ≤ INT_MAX := by
  unfold stoi at h
  simp only at h
  split_ifs at h with h1 h2 h3 h4
  · cases h
    exact h3
  · cases h
    exact h4

theorem wrapInt32_range (v : Int) : INT_MIN ≤ wrapInt32 v ∧ wrapInt32 v ≤ INT_MAX := by
  unfold wrapInt32 INT_MIN INT_MAX
  omega

/-- Whatever `calcFileSize` returns is a value of a signed 32-bit `int`. -/
theorem calcFileSize_range {s : List Char} {v : Int} (h : calcFileSize s = Outcome.ret v) :
    INT_MIN ≤ v ∧ v ≤ INT_MAX := by
  unfold calcFileSize at h
  split at h
  · exact absurd h (by simp)
  · simp only at h
    split at h
    · exact absurd h (by simp)
    · split at h
      · split at h
        · rename_i hs
          simp only [Outcome.ret.injEq] at h
          rw [← h]
          exact stoi_range hs
        · exact absurd h (by simp)
      · split at h
        · exact absurd h (by simp)
        · split at h
          · simp only [Outcome.ret.injEq] at h
            rw [← h]
            exact wrapInt32_range _
          · exact absurd h (by simp)

/-! ## File sizes -/

/-- C1: for a plain decimal numeral `d` of the natural number `n`, `calcFileSize`
returns `n` for `d ++ "B"`, `n * 1024` for `d ++ "KB"` and `n * 1048576` for
`d ++ "MB"`, each time the product fits a signed 32-bit `int`. -/
theorem calcFileSize_units (d : List Char) (n : Nat) (hd : IsNumeral d n) :
    ((n : Int) ≤ INT_MAX → calcFileSize (d ++ "B".toList) = Outcome.ret (n : Int)) ∧
    ((n : Int) * 1024 ≤ INT_MAX →
      calcFileSize (d ++ "KB".toList) = Outcome.ret ((n : Int) * 1024)) ∧
    ((n : Int) * 1048576 ≤ INT_MAX →
      calcFileSize (d ++ "MB".toList) = Outcome.ret ((n : Int) * 1048576)) := by
  have hmax : INT_MAX = 2147483647 := rfl
  have hmin : INT_MIN = -2147483648 := rfl
  refine ⟨?_, ?_, ?_⟩
  · intro hn
    obtain ⟨u, hu, hdig⟩ := hd.getLast_isdigit
    have h := calcFileSize_digit_before_last d u 'B' hu hdig
    rw [stoi_numeral hd hn] at h
    exact h
  · intro hn
    have hn1 : (n : Int) ≤ INT_MAX := by omega
    have h := calcFileSize_unit_before_last d 'K' 'B' (by decide)
    rw [stoi_numeral hd hn1] at h
    have hm : unitMultiplier 'K' = some 1024 := by decide
    rw [hm] at h
    simp only at h
    rw [wrapInt32_of_range (by omega) hn] at h
    exact h
  · intro hn
    have hn1 : (n : Int) ≤ INT_MAX := by omega
    have h := calcFileSize_unit_before_last d 'M' 'B' (by decide)
    rw [stoi_numeral hd hn1] at h
    have hm : unitMultiplier 'M' = some 1048576 := by decide
    rw [hm] at h
    simp only at h
    rw [wrapInt32_of_range (by omega) hn] at h
    exact h

/-- Witness of C1 at the numeral `"10"`: `"10B"`, `"10KB"` and `"10MB"`. -/
theorem calcFileSize_units_witness :
    IsNumeral "10".toList 10 ∧
    calcFileSize "10B".toList = Outcome.ret 10 ∧
    calcFileSize "10KB".toList = Outcome.ret 10240 ∧
    calcFileSize "10MB".toList = Outcome.ret 10485760 :=
  have hd : IsNumeral "10".toList 10 := ⟨by decide, by decide, by decide⟩
  ⟨hd, (calcFileSize_units "10".toList 10 hd).1 (by decide),
    (calcFileSize_units "10".toList 10 hd).2.1 (by decide),
    (calcFileSize_units "10".toList 10 hd).2.2 (by decide)⟩

/-- C2: an unsupported unit is not always rejected. `"10GB"` ends in `exit (1)`,
but `"10G"` and `"10K"` return 10 with the unit letter dropped, and `"10XKB"`
returns 10240 with the `X` dropped. -/
theorem calcFileSize_unsupported_unit :
    calcFileSize "10GB".toList = Outcome.exit 1 ∧
    calcFileSize "10G".toList = Outcome.ret 10 ∧
    calcFileSize "10K".toList = Outcome.ret 10 ∧
    calcFileSize "10XKB".toList = Outcome.ret 10240 := by
  decide

/-! ## Arrival tracking -/

theorem DLT.Run_nil (t : ℚ) : DLT.Run [] t = t := rfl

theorem DLT.Run_concat (ds : List DLT.Delivery) (d : DLT.Delivery) (t : ℚ) :
    DLT.Run (ds ++ [d]) t = d.now := by
  simp [DLT.Run, DLT.PacketArrivalCallback, List.foldl_append]

/-- After a non-empty run the global holds the clock reading of the last delivery. -/
theorem DLT.Run_getLast (ds : List DLT.Delivery) (hne : ds ≠ []) (t : ℚ) :
    DLT.Run ds t = (ds.getLast hne).now := by
  have h := DLT.Run_concat ds.dropLast (ds.getLast hne) t
  rw [List.dropLast_append_getLast hne] at h
  exact h

/-- When `calcFileSize` returns, `main` ends with the report on the global as the
run left it. -/
theorem DLT.main_of_ret (flag : Option (List Char)) (v : Int)
    (h : DLT.calculatedFileSize flag = Outcome.ret v) (deliveries : List DLT.Delivery) :
    DLT.main flag deliveries
      = Outcome.ret (DLT.report (DLT.Run deliveries DLT.lastArrivalTime)) := by
  simp [DLT.main, h, Outcome.map]

/-- Lines 195-200 after the run: when every delivery carries a clock reading >= 0,
the report is the error line with return value -1 exactly when the callback never
ran, the return value is non-zero exactly then, and in that case no line of
standard output is a bare arrival time. -/
theorem DLT.report_no_arrival_iff (deliveries : List DLT.Delivery)
    (hclock : ∀ d ∈ deliveries, 0 ≤ d.now) :
    (DLT.report (DLT.Run deliveries DLT.lastArrivalTime)
        = ([⟨"ERROR: Failed to track arrival times. [lastArrivalTime = ", -1, "]"⟩], -1)
      ↔ deliveries = []) ∧
    ((DLT.report (DLT.Run deliveries DLT.lastArrivalTime)).2 ≠ 0 ↔ deliveries = []) ∧
    (deliveries = [] →
      ∀ t : ℚ, (⟨"", t, ""⟩ : StdoutLine)
        ∉ (DLT.report (DLT.Run deliveries DLT.lastArrivalTime)).1) := by
  have hempty : DLT.report (DLT.Run [] DLT.lastArrivalTime)
      = ([⟨"ERROR: Failed to track arrival times. [lastArrivalTime = ", -1, "]"⟩], -1) := by
    simp [DLT.report, DLT.Run, DLT.lastArrivalTime]
  have hsome : deliveries ≠ [] →
      DLT.report (DLT.Run deliveries DLT.lastArrivalTime)
        = ([⟨"", DLT.Run deliveries DLT.lastArrivalTime, ""⟩], 0) := by
    intro hne
    have hpos : 0 ≤ DLT.Run deliveries DLT.lastArrivalTime := by
      rw [DLT.Run_getLast deliveries hne]
      exact hclock _ (List.getLast_mem hne)
    have hneq : DLT.Run deliveries DLT.lastArrivalTime ≠ -1 := by
      intro h
      rw [h] at hpos
      exact absurd hpos (by norm_num)
    simp [DLT.report, hneq]
  refine ⟨⟨?_, ?_⟩, ⟨?_, ?_⟩, ?_⟩
  · intro h
    by_contra hne
    rw [hsome hne] at h
    simp at h
  · rintro rfl
    exact hempty
  · intro h
    by_contra hne
    rw [hsome hne] at h
    simp at h
  · rintro rfl
    rw [hempty]
    simp
  · rintro rfl t
    rw [hempty]
    simp

/-- C4, as stated, fails on the whole run: with `--fileSize=10GB` the callback is
never invoked (no delivery), and the script ends in `exit (1)` at line 226, not
with the error report and -1. -/
theorem DLT_no_callback_exit_one :
    DLT.main (some "10GB".toList) [] = Outcome.exit 1 ∧
    ¬ (DLT.main (some "10GB".toList) []
          = Outcome.ret
              ([⟨"ERROR: Failed to track arrival times. [lastArrivalTime = ", -1, "]"⟩], -1)
        ↔ ([] : List DLT.Delivery) = []) := by
  have h1 : DLT.main (some "10GB".toList) [] = Outcome.exit 1 := by
    have hc : DLT.calculatedFileSize (some "10GB".toList) = Outcome.exit 1 := by decide
    unfold DLT.main
    rw [hc]
    rfl
  refine ⟨h1, ?_⟩
  rw [h1]
  simp

/-- C4, amended: when `calcFileSize` returns for the requested file size, so that
the simulation is run, and every delivery carries a clock reading >= 0, `main`
ends with the error line and the return value -1 exactly when the callback was
never invoked, its return value is non-zero exactly then, and in that case no
line of standard output is a bare arrival time. When `calcFileSize` does not
return, `main` ends as `calcFileSize` does, whatever the deliveries. -/
theorem DLT_main_no_arrival_iff (flag : Option (List Char)) (v : Int)
    (hret : DLT.calculatedFileSize flag = Outcome.ret v)
    (deliveries : List DLT.Delivery) (hclock : ∀ d ∈ deliveries, 0 ≤ d.now) :
    (DLT.main flag deliveries
        = Outcome.ret
            ([⟨"ERROR: Failed to track arrival times. [lastArrivalTime = ", -1, "]"⟩], -1)
      ↔ deliveries = []) ∧
    ((∃ out code, DLT.main flag deliveries = Outcome.ret (out, code) ∧ code ≠ 0)
      ↔ deliveries = []) ∧
    (deliveries = [] →
      ∀ out code, DLT.main flag deliveries = Outcome.ret (out, code) →
        code = -1 ∧ ∀ t : ℚ, (⟨"", t, ""⟩ : StdoutLine) ∉ out) ∧
    (∀ (flag2 : Option (List Char)) (ds : List DLT.Delivery),
      (∀ w, DLT.calculatedFileSize flag2 ≠ Outcome.ret w) →
      ∀ out, DLT.main flag2 ds ≠ Outcome.ret out) := by
  have hmain := DLT.main_of_ret flag v hret deliveries
  obtain ⟨h1, h2, h3⟩ := DLT.report_no_arrival_iff deliveries hclock
  refine ⟨?_, ?_, ?_, ?_⟩
  · rw [hmain, Outcome.ret.injEq]
    exact h1
  · rw [← h2]
    constructor
    · rintro ⟨out, code, hm, hcode⟩
      rw [hmain, Outcome.ret.injEq] at hm
      rw [hm]
      exact hcode
    · intro hne
      exact ⟨_, _, hmain, hne⟩
  · intro hnil out code hm
    rw [hmain, Outcome.ret.injEq] at hm
    have hcode : (DLT.report (DLT.Run deliveries DLT.lastArrivalTime)).2 = -1 := by
      rw [h1.mpr hnil]
    have hout := h3 hnil
    rw [hm] at hcode hout
    exact ⟨hcode, hout⟩
  · intro flag2 ds hno out hm
    unfold DLT.main at hm
    cases hc : DLT.calculatedFileSize flag2 with
    | ret w => exact hno w hc
    | exit code => rw [hc] at hm; simp [Outcome.map] at hm
    | uncaught e => rw [hc] at hm; simp [Outcome.map] at hm
    | undefined => rw [hc] at hm; simp [Outcome.map] at hm

/-- Witness of C4 (amended): the default file size and no delivery. -/
theorem DLT_main_no_arrival_iff_witness :
    DLT.calculatedFileSize none = Outcome.ret 1048576 ∧
    DLT.main none []
      = Outcome.ret
          ([⟨"ERROR: Failed to track arrival times. [lastArrivalTime = ", -1, "]"⟩], -1) :=
  have hc : DLT.calculatedFileSize none = Outcome.ret 1048576 := by decide
  ⟨hc, (DLT_main_no_arrival_iff none 1048576 hc [] (by simp)).1.mpr rfl⟩

/-- C5: after a non-empty sequence of deliveries (clock readings >= 0, as the
simulated clock gives them) the global `lastArrivalTime` is the reading of the
most recent delivery, since the callback overwrites it whatever it held; the
report is that value alone with return value 0; and when the readings are
non-decreasing no delivery has a larger one. -/
theorem DLT_last_arrival (deliveries : List DLT.Delivery) (hne : deliveries ≠ [])
    (hclock : ∀ d ∈ deliveries, 0 ≤ d.now) :
    (∀ (d : DLT.Delivery) (t : ℚ), DLT.PacketArrivalCallback d t = d.now) ∧
    DLT.Run deliveries DLT.lastArrivalTime = (deliveries.getLast hne).now ∧
    DLT.report (DLT.Run deliveries DLT.lastArrivalTime)
      = ([⟨"", (deliveries.getLast hne).now, ""⟩], 0) ∧
    (List.Chain' (fun s t => s ≤ t) (deliveries.map DLT.Delivery.now) →
      ∀ d ∈ deliveries, d.now ≤ DLT.Run deliveries DLT.lastArrivalTime) := by
  have hrun := DLT.Run_getLast deliveries hne DLT.lastArrivalTime
  refine ⟨fun _ _ => rfl, hrun, ?_, ?_⟩
  · have hneq : (deliveries.getLast hne).now ≠ -1 := by
      intro h
      have hpos := hclock _ (List.getLast_mem hne)
      rw [h] at hpos
      exact absurd hpos (by norm_num)
    rw [hrun]
    simp [DLT.report, hneq]
  · intro hchain d hd
    rw [hrun]
    have hpair : List.Pairwise (fun s t => s ≤ t) (deliveries.map DLT.Delivery.now) :=
      List.chain'_iff_pairwise.mp hchain
    rw [← List.dropLast_append_getLast hne, List.map_append, List.pairwise_append] at hpair
    rw [← List.dropLast_append_getLast hne, List.mem_append] at hd
    rcases hd with hd | hd
    · exact hpair.2.2 d.now (List.mem_map_of_mem _ hd) _ (by simp)
    · rw [List.mem_singleton] at hd
      rw [hd]

/-- Witness of C5: deliveries at 0.5 s and 1.5 s. -/
theorem DLT_last_arrival_witness :
    DLT.report (DLT.Run [⟨512, 1 / 2⟩, ⟨512, 3 / 2⟩] DLT.lastArrivalTime)
      = ([⟨"", 3 / 2, ""⟩], 0) :=
  (DLT_last_arrival [⟨512, 1 / 2⟩, ⟨512, 3 / 2⟩] (by simp)
    (by
      intro d hd
      simp only [List.mem_cons, List.mem_singleton, List.not_mem_nil, or_false] at hd
      rcases hd with hd | hd <;> rw [hd] <;> norm_num)).2.2.1

/-! ## The byte budget of the latency-tracking sender -/

/-- C6, as stated, fails: for `--fileSize=-5B` the function `calcFileSize` returns
-5, and the attribute `MaxBytes` is 18446744073709551611, not -5. -/
theorem DLT_MaxBytes_negative :
    calcFileSize "-5B".toList = Outcome.ret (-5) ∧
    DLT.MaxBytes (some "-5B".toList) = Outcome.ret 18446744073709551611 ∧
    (DLT.MaxBytes (some "-5B".toList)).map Int.ofNat ≠ calcFileSize "-5B".toList := by
  decide

/-- C6, amended: when `calcFileSize` returns `v` for the flag value, `MaxBytes` is
`v` reduced modulo 2^64, which is `v` itself when `v >= 0`; without the flag it is
`calcFileSize ("1MB") = 1048576`. -/
theorem DLT_MaxBytes_eq (flag : List Char) (v : Int)
    (hret : calcFileSize flag = Outcome.ret v) :
    DLT.MaxBytes (some flag) = Outcome.ret (v % 18446744073709551616).toNat ∧
    (0 ≤ v → (DLT.MaxBytes (some flag)).map Int.ofNat = calcFileSize flag) ∧
    calcFileSize "1MB".toList = Outcome.ret 1048576 ∧
    DLT.MaxBytes none = Outcome.ret 1048576 := by
  have h1 : DLT.MaxBytes (some flag) = Outcome.ret (v % 18446744073709551616).toNat := by
    simp [DLT.MaxBytes, DLT.calculatedFileSize, hret, Outcome.map, UintegerValue]
  refine ⟨h1, ?_, by decide, by decide⟩
  intro hv
  have hmax : v ≤ INT_MAX := (calcFileSize_range hret).2
  unfold INT_MAX at hmax
  rw [h1, hret]
  simp only [Outcome.map, Outcome.ret.injEq]
  rw [Int.ofNat_eq_coe, Int.toNat_of_nonneg (Int.emod_nonneg _ (by norm_num))]
  omega

/-- Witness of C6 at `--fileSize=10KB`. -/
theorem DLT_MaxBytes_eq_witness :
    calcFileSize "10KB".toList = Outcome.ret 10240 ∧
    DLT.MaxBytes (some "10KB".toList) = Outcome.ret 10240 :=
  ⟨by decide, (DLT_MaxBytes_eq "10KB".toList 10240 (by decide)).1⟩

/-! ## Reachability -/

/-- A node that no link touches reaches only itself. -/
theorem Connected.eq_of_isolated {links : List Link} {x y : Node}
    (hiso : ∀ l ∈ links, l.a ≠ x ∧ l.b ≠ x) (h : Connected links x y) : y = x := by
  induction h with
  | refl => rfl
  | tail _ hadj ih =>
    subst ih
    obtain ⟨l, hl, hj⟩ := hadj
    rcases hj with ⟨ha, _⟩ | ⟨_, hb⟩
    · exact absurd ha (hiso l hl).1
    · exact absurd hb (hiso l hl).2

theorem Connected.step {links : List Link} {x y z : Node} (h : Connected links x y)
    (l : Link) (hl : l ∈ links) (hj : l.joins y z) : Connected links x z :=
  Relation.ReflTransGen.tail h ⟨l, hl, hj⟩

/-- The path remote host, PGW, eNodeB, UE of the two single-flow scripts. -/
theorem Throughput.path_to_sink :
    Connected Throughput.links Throughput.flow.sender.node Throughput.flow.sink.node := by
  have h0 : Connected Throughput.links Node.remoteHost Node.remoteHost :=
    Relation.ReflTransGen.refl
  have h1 := h0.step ⟨LinkKind.pointToPoint, Node.pgw, Node.remoteHost⟩
    (by simp [Throughput.links]) (Or.inr ⟨rfl, rfl⟩)
  have h2 := h1.step ⟨LinkKind.epcCore, Node.pgw, Node.enbNodes0⟩
    (by simp [Throughput.links]) (Or.inl ⟨rfl, rfl⟩)
  exact h2.step ⟨LinkKind.enbAttach, Node.ueNodes0, Node.enbNodes0⟩
    (by simp [Throughput.links]) (Or.inr ⟨rfl, rfl⟩)

theorem DLT.route_to_sink (size : Int) :
    Connected DLT.links (DLT.flow size).sender.node (DLT.flow size).sink.node := by
  have h0 : Connected DLT.links Node.remoteHost Node.remoteHost :=
    Relation.ReflTransGen.refl
  have h1 := h0.step ⟨LinkKind.pointToPoint, Node.pgw, Node.remoteHost⟩
    (by simp [DLT.links]) (Or.inr ⟨rfl, rfl⟩)
  have h2 := h1.step ⟨LinkKind.epcCore, Node.pgw, Node.enbNodes0⟩
    (by simp [DLT.links]) (Or.inl ⟨rfl, rfl⟩)
  exact h2.step ⟨LinkKind.enbAttach, Node.ueNodes0, Node.enbNodes0⟩
    (by simp [DLT.links]) (Or.inr ⟨rfl, rfl⟩)

/-- The path TCP remote host, PGW, eNodeB, TCP UE of the fairness script. -/
theorem Fairness.tcp_route :
    Connected Fairness.links Node.tcpRemoteHost Node.tcpUeNodes0 := by
  have h0 : Connected Fairness.links Node.tcpRemoteHost Node.tcpRemoteHost :=
    Relation.ReflTransGen.refl
  have h1 := h0.step ⟨LinkKind.pointToPoint, Node.pgw, Node.tcpRemoteHost⟩
    (by simp [Fairness.links]) (Or.inr ⟨rfl, rfl⟩)
  have h2 := h1.step ⟨LinkKind.epcCore, Node.pgw, Node.enbNodes0⟩
    (by simp [Fairness.links]) (Or.inl ⟨rfl, rfl⟩)
  exact h2.step ⟨LinkKind.enbAttach, Node.tcpUeNodes0, Node.enbNodes0⟩
    (by simp [Fairness.links]) (Or.inr ⟨rfl, rfl⟩)

theorem TwoQuic.direct_link : Connected TwoQuic.links Node.nodes0 Node.nodes1 :=
  Connected.step Relation.ReflTransGen.refl ⟨LinkKind.pointToPoint, Node.nodes0, Node.nodes1⟩
    (by simp [TwoQuic.links]) (Or.inl ⟨rfl, rfl⟩)

/-- C7: in the fairness script no link touches `quicRemoteHost`, the node the QUIC
sender is installed on, so the node of the QUIC sink cannot be reached from it.
Every other flow of the four scripts has its sink node reachable from its sender
node. -/
theorem Fairness_quic_sender_unreachable :
    Fairness.flowQuic.sender.node = Node.quicRemoteHost ∧
    (∀ l ∈ Fairness.links, l.a ≠ Node.quicRemoteHost ∧ l.b ≠ Node.quicRemoteHost) ∧
    ¬ Connected Fairness.links Fairness.flowQuic.sender.node Fairness.flowQuic.sink.node ∧
    Connected Fairness.links Fairness.flow1.sender.node Fairness.flow1.sink.node ∧
    Connected Fairness.links Fairness.flow2.sender.node Fairness.flow2.sink.node ∧
    Connected Throughput.links Throughput.flow.sender.node Throughput.flow.sink.node ∧
    (∀ size : Int,
      Connected DLT.links (DLT.flow size).sender.node (DLT.flow size).sink.node) ∧
    Connected TwoQuic.links TwoQuic.flow1.sender.node TwoQuic.flow1.sink.node ∧
    Connected TwoQuic.links TwoQuic.flow2.sender.node TwoQuic.flow2.sink.node := by
  have hiso : ∀ l ∈ Fairness.links, l.a ≠ Node.quicRemoteHost ∧ l.b ≠ Node.quicRemoteHost := by
    decide
  refine ⟨rfl, hiso, ?_, Fairness.tcp_route, Fairness.tcp_route, Throughput.path_to_sink,
    DLT.route_to_sink, TwoQuic.direct_link, TwoQuic.direct_link⟩
  intro h
  have heq := Connected.eq_of_isolated hiso h
  exact absurd heq (by decide)

/-! ## Activation windows and ports -/

/-- C8: in each of the four scripts every flow has, for its sender and for its
sink, 0 <= start <= stop <= the argument of `Simulator::Stop`. -/
theorem windows_inside_run (calculatedFileSize : Int) :
    ∀ e ∈ experiments calculatedFileSize, ∀ f ∈ e.flows, f.windowsOk e.stopTime := by
  intro e he f hf
  simp only [experiments, List.mem_cons, List.mem_singleton, List.not_mem_nil, or_false] at he
  rcases he with rfl | rfl | rfl | rfl
  · simp only [Throughput.experiment, List.mem_singleton] at hf
    subst hf
    simp only [Flow.windowsOk, windowOk, Throughput.flow, Throughput.simulationDuration,
      Throughput.experiment]
    norm_num
  · simp only [DLT.experiment, List.mem_singleton] at hf
    subst hf
    simp only [Flow.windowsOk, windowOk, DLT.flow, DLT.simulationDuration, DLT.experiment]
    norm_num
  · simp only [Fairness.experiment, List.mem_cons, List.mem_singleton, List.not_mem_nil,
      or_false] at hf
    rcases hf with rfl | rfl | rfl <;>
      simp only [Flow.windowsOk, windowOk, Fairness.flow1, Fairness.flow2, Fairness.flowQuic,
        Fairness.simulationDuration, Fairness.experiment] <;>
      norm_num
  · simp only [TwoQuic.experiment, List.mem_cons, List.mem_singleton, List.not_mem_nil,
      or_false] at hf
    rcases hf with rfl | rfl <;>
      simp only [Flow.windowsOk, windowOk, TwoQuic.flow1, TwoQuic.flow2, TwoQuic.experiment] <;>
      norm_num

/-- Witness of C8: the QUIC flow of the fairness script, whose sender starts at
2 s. -/
theorem windows_inside_run_witness :
    Fairness.flowQuic.sender.start = 2 ∧
    Fairness.flowQuic.windowsOk Fairness.experiment.stopTime :=
  ⟨rfl, windows_inside_run 0 Fairness.experiment (by simp [experiments])
    Fairness.flowQuic (by simp [Fairness.experiment])⟩

/-- C9: in each script any two distinct flows that have the same destination
address, or whose sinks are on the same node, differ in their port; the ports are
1100 and 1200 in TwoQuicConnectionsSameReceiver and 1100, 1200 and 1600 in
2TCPs-Fairness-over-LTE. -/
theorem ports_distinct (calculatedFileSize : Int) :
    (∀ e ∈ experiments calculatedFileSize,
      e.flows.Pairwise (fun f g => f.sharesEndpoint g → f.portsDiffer g)) ∧
    TwoQuic.experiment.flows.map (fun f => (f.sender.destinationPort, f.sink.port))
      = [(1100, 1100), (1200, 1200)] ∧
    Fairness.experiment.flows.map (fun f => (f.sender.destinationPort, f.sink.port))
      = [(1100, 1100), (1200, 1200), (1600, 1600)] := by
  refine ⟨?_, by decide, by decide⟩
  intro e he
  simp only [experiments, List.mem_cons, List.mem_singleton, List.not_mem_nil, or_false] at he
  rcases he with rfl | rfl | rfl | rfl
  · simp [Throughput.experiment]
  · simp [DLT.experiment]
  · simp only [Fairness.experiment, List.pairwise_cons, List.mem_cons, List.mem_singleton,
      List.not_mem_nil, or_false, forall_eq_or_imp, forall_eq, List.Pairwise.nil, and_true,
      IsEmpty.forall_iff, implies_true]
    refine ⟨⟨?_, ?_⟩, ?_⟩ <;> intro _ <;>
      exact ⟨by decide, by decide⟩
  · simp only [TwoQuic.experiment, List.pairwise_cons, List.mem_cons, List.mem_singleton,
      List.not_mem_nil, or_false, forall_eq_or_imp, forall_eq, List.Pairwise.nil, and_true,
      IsEmpty.forall_iff, implies_true]
    intro _
    exact ⟨by decide, by decide⟩

/-- Witness of C9: the two TCP flows of the fairness script share their sink node
and their destination address, and their ports differ. -/
theorem ports_distinct_witness :
    Fairness.flow1.sharesEndpoint Fairness.flow2 ∧
    Fairness.flow1.portsDiffer Fairness.flow2 :=
  have hshare : Fairness.flow1.sharesEndpoint Fairness.flow2 := Or.inr rfl
  have hpair := (ports_distinct 0).1 Fairness.experiment (by simp [experiments])
  ⟨hshare, (List.pairwise_cons.mp hpair).1 Fairness.flow2 (by simp) hshare⟩

/-! ## Independence of the reported flows -/

/-- The line reporting a sink is computed from the counter of that sink alone. -/
theorem Fairness.reported_eq (rnd : ℚ → ℚ) (run : List Fairness.Delivery)
    (A : Fairness.SinkApp) :
    Fairness.reported rnd run A =
      some ⟨(match A with
             | Fairness.SinkApp.sinkApps1 => "TCP FLOW 1 THROUGHTPUT: "
             | Fairness.SinkApp.sinkApps2 => "TCP FLOW 2 THROUGHTPUT: "
             | Fairness.SinkApp.sinkAppsQuic => "QUIC FLOW 2 THROUGHTPUT: "),
            throughput rnd Fairness.simulationDuration (Fairness.GetTotalRx run A), ""⟩ := by
  cases A <;> rfl

/-- A delivery to another sink leaves the counter of a sink as it was. -/
theorem Fairness.GetTotalRx_insert (pre post : List Fairness.Delivery)
    (A B : Fairness.SinkApp) (hAB : A ≠ B) (n : Nat) :
    Fairness.GetTotalRx (pre ++ ⟨A, n⟩ :: post) B = Fairness.GetTotalRx (pre ++ post) B := by
  unfold Fairness.GetTotalRx
  rw [List.filter_append, List.filter_append, List.filter_cons_of_neg (by simpa using hAB)]

/-- C10: in the fairness script the counter of a sink and the line reported for it
are the same in any two runs that delivered the same number of bytes to that sink,
whatever the other sinks received; and a delivery to the sink of flow A, anywhere
in a run, changes neither the counter nor the reported line of another flow B. -/
theorem Fairness_report_independent (rnd : ℚ → ℚ) (A : Fairness.SinkApp) :
    (∀ run1 run2 : List Fairness.Delivery,
      ((run1.filter (fun d => decide (d.sink = A))).map Fairness.Delivery.packetSize).sum
        = ((run2.filter (fun d => decide (d.sink = A))).map Fairness.Delivery.packetSize).sum →
      Fairness.GetTotalRx run1 A = Fairness.GetTotalRx run2 A ∧
      Fairness.reported rnd run1 A = Fairness.reported rnd run2 A) ∧
    (∀ (B : Fairness.SinkApp) (pre post : List Fairness.Delivery) (n : Nat), A ≠ B →
      Fairness.GetTotalRx (pre ++ ⟨A, n⟩ :: post) B = Fairness.GetTotalRx (pre ++ post) B ∧
      Fairness.reported rnd (pre ++ ⟨A, n⟩ :: post) B
        = Fairness.reported rnd (pre ++ post) B) := by
  constructor
  · intro run1 run2 h
    have hrx : Fairness.GetTotalRx run1 A = Fairness.GetTotalRx run2 A := by
      unfold Fairness.GetTotalRx
      rw [h]
    exact ⟨hrx, by rw [Fairness.reported_eq, Fairness.reported_eq, hrx]⟩
  · intro B pre post n hAB
    have hrx := Fairness.GetTotalRx_insert pre post A B hAB n
    exact ⟨hrx, by rw [Fairness.reported_eq, Fairness.reported_eq, hrx]⟩

/-- Witness of C10: two runs that give 1024 bytes to the sink of the first TCP
flow, in one packet or in two, and differ in everything else. -/
theorem Fairness_report_independent_witness :
    Fairness.reported (fun q => q)
        [⟨Fairness.SinkApp.sinkApps1, 1024⟩, ⟨Fairness.SinkApp.sinkApps2, 700⟩]
        Fairness.SinkApp.sinkApps1
      = Fairness.reported (fun q => q)
        [⟨Fairness.SinkApp.sinkAppsQuic, 9⟩, ⟨Fairness.SinkApp.sinkApps1, 512⟩,
          ⟨Fairness.SinkApp.sinkApps1, 512⟩]
        Fairness.SinkApp.sinkApps1 :=
  ((Fairness_report_independent (fun q => q) Fairness.SinkApp.sinkApps1).1
    [⟨Fairness.SinkApp.sinkApps1, 1024⟩, ⟨Fairness.SinkApp.sinkApps2, 700⟩]
    [⟨Fairness.SinkApp.sinkAppsQuic, 9⟩, ⟨Fairness.SinkApp.sinkApps1, 512⟩,
      ⟨Fairness.SinkApp.sinkApps1, 512⟩]
    (by decide)).2

/-! ## No first-seen timestamp -/

/-- C11, as stated, fails: two runs whose first deliveries happen at 0.5 s and at
1 s, both followed by a delivery at 1.5 s, leave the same global and give the same
report, a single line holding 1.5; the global held 0.5 after the first delivery
and no longer holds it after the second. -/
theorem DLT_first_seen_lost :
    DLT.Run [⟨512, 1 / 2⟩] DLT.lastArrivalTime = 1 / 2 ∧
    DLT.Run [⟨512, 1 / 2⟩, ⟨512, 3 / 2⟩] DLT.lastArrivalTime = 3 / 2 ∧
    DLT.Run [⟨512, 1⟩, ⟨512, 3 / 2⟩] DLT.lastArrivalTime = 3 / 2 ∧
    DLT.report (DLT.Run [⟨512, 1 / 2⟩, ⟨512, 3 / 2⟩] DLT.lastArrivalTime)
      = ([⟨"", 3 / 2, ""⟩], 0) ∧
    DLT.report (DLT.Run [⟨512, 1⟩, ⟨512, 3 / 2⟩] DLT.lastArrivalTime)
      = ([⟨"", 3 / 2, ""⟩], 0) := by
  have h1 : DLT.Run [⟨512, 1 / 2⟩] DLT.lastArrivalTime = 1 / 2 := rfl
  have h2 : DLT.Run [⟨512, 1 / 2⟩, ⟨512, 3 / 2⟩] DLT.lastArrivalTime = 3 / 2 := rfl
  have h3 : DLT.Run [⟨512, 1⟩, ⟨512, 3 / 2⟩] DLT.lastArrivalTime = 3 / 2 := rfl
  have hne : (3 / 2 : ℚ) ≠ -1 := by norm_num
  refine ⟨h1, h2, h3, ?_, ?_⟩
  · rw [h2]
    simp [DLT.report, hne]
  · rw [h3]
    simp [DLT.report, hne]

/-- C11, amended: the collector keeps one timestamp, the last seen. A delivery
that is followed by another one has no effect on the global after the run nor on
the report, whatever its clock reading, and the report is always a single line. -/
theorem DLT_only_last_seen (d : DLT.Delivery) (rest : List DLT.Delivery)
    (hne : rest ≠ []) :
    (∀ t : ℚ, DLT.Run (d :: rest) t = (rest.getLast hne).now) ∧
    (∀ (d2 : DLT.Delivery) (t : ℚ), DLT.Run (d :: rest) t = DLT.Run (d2 :: rest) t) ∧
    (∀ d2 : DLT.Delivery,
      DLT.report (DLT.Run (d :: rest) DLT.lastArrivalTime)
        = DLT.report (DLT.Run (d2 :: rest) DLT.lastArrivalTime)) ∧
    (∀ t : ℚ, (DLT.report t).1.length = 1) := by
  have hrun : ∀ (d1 : DLT.Delivery) (t : ℚ),
      DLT.Run (d1 :: rest) t = (rest.getLast hne).now := by
    intro d1 t
    rw [DLT.Run_getLast (d1 :: rest) (by simp) t, List.getLast_cons hne]
  refine ⟨hrun d, ?_, ?_, ?_⟩
  · intro d2 t
    rw [hrun d, hrun d2]
  · intro d2
    rw [hrun d, hrun d2]
  · intro t
    unfold DLT.report
    split_ifs <;> rfl

/-- Witness of C11 (amended): a first delivery at 0.5 s followed by one at 1.5 s. -/
theorem DLT_only_last_seen_witness :
    DLT.Run [⟨512, 1 / 2⟩, ⟨512, 3 / 2⟩] DLT.lastArrivalTime = 3 / 2 :=
  (DLT_only_last_seen ⟨512, 1 / 2⟩ [⟨512, 3 / 2⟩] (by simp)).1 DLT.lastArrivalTime

/-! ## Chunk size -/

/-- C12, as stated, fails on the count: the four scripts configure seven bulk
senders (1, 1, 3 and 2), not eight. -/
theorem senders_are_seven :
    (experiments 0).map (fun e => e.flows.length) = [1, 1, 3, 2] ∧
    (allFlows 0).length = 7 ∧ (allFlows 0).length ≠ 8 := by
  decide

/-- C12, amended: each of the seven bulk senders of the four scripts has
`SendSize` 512, hence a chunk size > 0. -/
theorem SendSize_512 (calculatedFileSize : Int) :
    (allFlows calculatedFileSize).length = 7 ∧
    ∀ f ∈ allFlows calculatedFileSize, f.sender.SendSize = 512 ∧ 0 < f.sender.SendSize := by
  refine ⟨rfl, ?_⟩
  intro f hf
  simp only [allFlows, experiments, List.flatMap_cons, List.flatMap_nil, Throughput.experiment,
    DLT.experiment, Fairness.experiment, TwoQuic.experiment, List.cons_append, List.nil_append,
    List.append_nil, List.mem_cons, List.mem_singleton, List.not_mem_nil, or_false] at hf
  rcases hf with rfl | rfl | rfl | rfl | rfl | rfl | rfl <;>
    exact ⟨rfl, show (0 : Nat) < 512 by decide⟩

/-- Witness of C12 (amended): the QUIC sender of the latency-tracking script. -/
theorem SendSize_512_witness :
    DLT.flow 1048576 ∈ allFlows 1048576 ∧ (DLT.flow 1048576).sender.SendSize = 512 :=
  have hmem : DLT.flow 1048576 ∈ allFlows 1048576 := by
    simp [allFlows, experiments, DLT.experiment]
  ⟨hmem, ((SendSize_512 1048576).2 (DLT.flow 1048576) hmem).1⟩

/-! ## Error model -/

/-- The state the shared statements leave: one object with the rate the literal
`0.005` denotes and packet unit, and the pointer to it in the device of the PGW
and in that of the host. -/
theorem lteErrorSetup_eq (host : Node) :
    (lteErrorSetup host).objects
      = [{ ErrorRate := DoubleValue_0_005, ErrorUnit := "ERROR_UNIT_PACKET" }] ∧
    (lteErrorSetup host).internetDevices
      = [{ node := Node.pgw, ReceiveErrorModel := some 0 },
         { node := host, ReceiveErrorModel := some 0 }] :=
  ⟨rfl, rfl⟩

/-- The value of the literal `0.005` is a `double` with a 53-bit significand and
exponent -60, above 5/1000 by less than half a unit in the last place, and it
lies in [0, 1]. -/
theorem DoubleValue_0_005_nearest :
    IsDouble DoubleValue_0_005 ∧
    DoubleValue_0_005 = (5764607523034235 : ℚ) / 2 ^ 60 ∧
    (2 : ℚ) ^ 52 ≤ 5764607523034235 ∧ (5764607523034235 : ℚ) < 2 ^ 53 ∧
    5 / 1000 < DoubleValue_0_005 ∧
    DoubleValue_0_005 - 5 / 1000 < 1 / 2 ^ 61 ∧
    0 ≤ DoubleValue_0_005 ∧ DoubleValue_0_005 ≤ 1 := by
  refine ⟨⟨5764607523034235, -60, by norm_num, by norm_num, by norm_num, ?_⟩, ?_, ?_, ?_, ?_,
    ?_, ?_, ?_⟩
  · unfold DoubleValue_0_005
    rw [zpow_neg]
    norm_num
  all_goals
    norm_num [DoubleValue_0_005]

/-- C13, as stated, fails on the value: the error model that the devices of
Throughput-over-LTE.cc receive through has the rate 5764607523034235 / 2^60, the
`double` the literal `0.005` denotes, and that is not 5/1000. -/
theorem ErrorRate_not_exact :
    ∃ em : RateErrorModel,
      Throughput.errorSetup.modelOf ⟨Node.pgw, some 0⟩ = some em ∧
      em.ErrorRate = 5764607523034235 / 1152921504606846976 ∧
      em.ErrorRate ≠ 5 / 1000 := by
  refine ⟨{ ErrorRate := DoubleValue_0_005, ErrorUnit := "ERROR_UNIT_PACKET" }, ?_, rfl, ?_⟩
  · simp [ErrorSetup.modelOf, Throughput.errorSetup, (lteErrorSetup_eq Node.remoteHost).1]
  · show DoubleValue_0_005 ≠ 5 / 1000
    unfold DoubleValue_0_005
    norm_num

/-- C13, amended: in each of the three LTE scripts the point-to-point link has the
device of the PGW and the device of the remote host, both hold the pointer to the
one `RateErrorModel` the script created, and that object has packet unit and, as
its rate, the `double` that `0.005` denotes: it is above 5/1000 by less than
2^-61 and lies in [0, 1]. -/
theorem error_model_on_both_devices :
    ∀ sh ∈ [(Throughput.errorSetup, Node.remoteHost), (DLT.errorSetup, Node.remoteHost),
        (Fairness.errorSetup, Node.tcpRemoteHost)],
      sh.1.internetDevices.map PointToPointNetDevice.node = [Node.pgw, sh.2] ∧
      sh.1.objects.length = 1 ∧
      ∀ dev ∈ sh.1.internetDevices,
        dev.ReceiveErrorModel = some 0 ∧
        ∃ em, sh.1.modelOf dev = some em ∧ em.ErrorUnit = "ERROR_UNIT_PACKET" ∧
          em.ErrorRate = 5764607523034235 / 2 ^ 60 ∧ IsDouble em.ErrorRate ∧
          5 / 1000 < em.ErrorRate ∧ em.ErrorRate - 5 / 1000 < 1 / 2 ^ 61 ∧
          0 ≤ em.ErrorRate ∧ em.ErrorRate ≤ 1 := by
  have key : ∀ host : Node,
      (lteErrorSetup host).internetDevices.map PointToPointNetDevice.node = [Node.pgw, host] ∧
      (lteErrorSetup host).objects.length = 1 ∧
      ∀ dev ∈ (lteErrorSetup host).internetDevices,
        dev.ReceiveErrorModel = some 0 ∧
        ∃ em, (lteErrorSetup host).modelOf dev = some em ∧
          em.ErrorUnit = "ERROR_UNIT_PACKET" ∧
          em.ErrorRate = 5764607523034235 / 2 ^ 60 ∧ IsDouble em.ErrorRate ∧
          5 / 1000 < em.ErrorRate ∧ em.ErrorRate - 5 / 1000 < 1 / 2 ^ 61 ∧
          0 ≤ em.ErrorRate ∧ em.ErrorRate ≤ 1 := by
    intro host
    obtain ⟨hobj, hdev⟩ := lteErrorSetup_eq host
    obtain ⟨h1, h2, -, -, h5, h6, h7, h8⟩ := DoubleValue_0_005_nearest
    refine ⟨by rw [hdev]; rfl, by rw [hobj]; rfl, ?_⟩
    intro dev hmem
    rw [hdev] at hmem
    have hptr : dev.ReceiveErrorModel = some 0 := by
      simp only [List.mem_cons, List.mem_singleton, List.not_mem_nil, or_false] at hmem
      rcases hmem with rfl | rfl <;> rfl
    refine ⟨hptr, { ErrorRate := DoubleValue_0_005, ErrorUnit := "ERROR_UNIT_PACKET" }, ?_, rfl,
      h2, h1, h5, h6, h7, h8⟩
    simp [ErrorSetup.modelOf, hptr, hobj]
  intro sh hsh
  simp only [List.mem_cons, List.mem_singleton, List.not_mem_nil, or_false] at hsh
  rcases hsh with rfl | rfl | rfl
  · exact key Node.remoteHost
  · exact key Node.remoteHost
  · exact key Node.tcpRemoteHost

/-- Witness of C13 (amended): the device of `tcpRemoteHost` in the fairness
script. -/
theorem error_model_on_both_devices_witness :
    (⟨Node.tcpRemoteHost, some 0⟩ : PointToPointNetDevice) ∈ Fairness.errorSetup.internetDevices ∧
    ∃ em, Fairness.errorSetup.modelOf ⟨Node.tcpRemoteHost, some 0⟩ = some em ∧
      em.ErrorUnit = "ERROR_UNIT_PACKET" ∧
      em.ErrorRate = 5764607523034235 / 2 ^ 60 ∧ IsDouble em.ErrorRate ∧
      5 / 1000 < em.ErrorRate ∧ em.ErrorRate - 5 / 1000 < 1 / 2 ^ 61 ∧
      0 ≤ em.ErrorRate ∧ em.ErrorRate ≤ 1 :=
  have hmem : (⟨Node.tcpRemoteHost, some 0⟩ : PointToPointNetDevice)
      ∈ Fairness.errorSetup.internetDevices := by
    rw [Fairness.errorSetup, (lteErrorSetup_eq Node.tcpRemoteHost).2]
    simp
  ⟨hmem, ((error_model_on_both_devices (Fairness.errorSetup, Node.tcpRemoteHost)
    (by simp)).2.2 ⟨Node.tcpRemoteHost, some 0⟩ hmem).2⟩

/-! ## Zero bytes -/

theorem IsDouble_of_nat (k : Nat) (hk : k < 2 ^ 53) : IsDouble (k : ℚ) := by
  refine ⟨(k : Int), 0, ?_, by norm_num, by norm_num, by simp⟩
  rw [abs_of_nonneg (by positivity)]
  exact_mod_cast hk

theorem IsDouble_two_pow_neg23 : IsDouble (1 / 8388608 : ℚ) := by
  refine ⟨1, -23, by norm_num, by norm_num, by norm_num, ?_⟩
  rw [zpow_neg]
  norm_num

/-- With a rounding that is monotone and leaves `double` values alone, the
throughput computed for a 40 s run is 0 exactly for a byte count of 0. -/
theorem throughput_eq_zero_iff {rnd : ℚ → ℚ} (hrnd : IsRounding rnd) (b : Nat) :
    throughput rnd 40 b = 0 ↔ b = 0 := by
  have h0 : rnd 0 = 0 := by
    have h := hrnd.fixes _ (IsDouble_of_nat 0 (by norm_num))
    simpa using h
  have h1 : rnd 1 = 1 := by
    have h := hrnd.fixes _ (IsDouble_of_nat 1 (by norm_num))
    simpa using h
  have h8 : rnd 8 = 8 := by
    have h := hrnd.fixes _ (IsDouble_of_nat 8 (by norm_num))
    simpa using h
  have hd1 : rnd (40 * 1000) = 40000 := by
    have h := hrnd.fixes _ (IsDouble_of_nat 40000 (by norm_num))
    norm_num at h ⊢
    exact h
  have hd2 : rnd (40000 * 1000) = 40000000 := by
    have h := hrnd.fixes _ (IsDouble_of_nat 40000000 (by norm_num))
    norm_num at h ⊢
    exact h
  have hs : rnd (1 / 8388608) = 1 / 8388608 := hrnd.fixes _ IsDouble_two_pow_neg23
  unfold throughput
  rw [hd1, hd2]
  constructor
  · intro hz
    by_contra hb
    have hb1 : (1 : ℚ) ≤ (b : ℚ) := by
      exact_mod_cast Nat.one_le_iff_ne_zero.mpr hb
    have hx : 1 ≤ rnd (b : ℚ) := by
      have h := hrnd.mono hb1
      rwa [h1] at h
    have hy : 8 ≤ rnd (rnd (b : ℚ) * 8) := by
      have h := hrnd.mono (show (8 : ℚ) ≤ rnd (b : ℚ) * 8 by linarith)
      rwa [h8] at h
    have hq : (1 / 8388608 : ℚ) ≤ rnd (rnd (b : ℚ) * 8) / 40000000 := by
      rw [le_div_iff₀ (by norm_num)]
      linarith
    have hr := hrnd.mono hq
    rw [hs, hz] at hr
    norm_num at hr
  · rintro rfl
    simp [h0]

/-- C14: with a rounding that is monotone and leaves `double` values alone, both
throughput scripts return 0 whatever was received; the throughput line of
Throughput-over-LTE holds 0 exactly when the sink received 0 bytes, and in
2TCPs-Fairness-over-LTE the line of each sink holds 0 exactly when that sink
received 0 bytes. -/
theorem zero_bytes_zero_throughput (rnd : ℚ → ℚ) (hrnd : IsRounding rnd) :
    (∀ b : Nat,
      Throughput.main rnd b
        = ([⟨"Total Bytes Received: ", (b : ℚ), ""⟩,
            ⟨"Throughput: ", throughput rnd 40 b, " Mbps"⟩], 0) ∧
      (throughput rnd 40 b = 0 ↔ b = 0)) ∧
    (∀ run : List Fairness.Delivery,
      (Fairness.main rnd run).2 = 0 ∧
      ∀ sink : Fairness.SinkApp, ∃ line : StdoutLine,
        Fairness.reported rnd run sink = some line ∧
        (line.value = 0 ↔ Fairness.GetTotalRx run sink = 0)) := by
  constructor
  · intro b
    exact ⟨rfl, throughput_eq_zero_iff hrnd b⟩
  · intro run
    refine ⟨rfl, ?_⟩
    intro sink
    refine ⟨_, Fairness.reported_eq rnd run sink, ?_⟩
    exact throughput_eq_zero_iff hrnd _

/-- Witness of C14, with the rounding that changes nothing: no byte received. -/
theorem zero_bytes_zero_throughput_witness :
    IsRounding (fun q => q) ∧
    Throughput.main (fun q => q) 0
      = ([⟨"Total Bytes Received: ", 0, ""⟩, ⟨"Throughput: ", 0, " Mbps"⟩], 0) :=
  have hid : IsRounding (fun q => q) := ⟨fun _ _ h => h, fun _ _ => rfl⟩
  have hz : throughput (fun q => q) 40 0 = 0 :=
    ((zero_bytes_zero_throughput (fun q => q) hid).1 0).2.mpr rfl
  ⟨hid, by
    have h := ((zero_bytes_zero_throughput (fun q => q) hid).1 0).1
    rw [hz] at h
    simpa using h⟩

/-! ## What `calcFileSize` does with the last characters -/

/-- On a numeral that fits an `int`, followed by one of the three units,
`calcFileSize` returns the product as an `int`. -/
theorem calcFileSize_numeral_unit {d : List Char} {n : Nat} (hd : IsNumeral d n)
    (hn : (n : Int) ≤ INT_MAX) :
    ∀ um ∈ acceptedUnits, calcFileSize (d ++ um.1) = Outcome.ret (wrapInt32 ((n : Int) * um.2)) := by
  have hmax : INT_MAX = 2147483647 := rfl
  have hmin : INT_MIN = -2147483648 := rfl
  intro um hum
  simp only [acceptedUnits, List.mem_cons, List.mem_singleton, List.not_mem_nil,
    or_false] at hum
  rcases hum with rfl | rfl | rfl
  · obtain ⟨u, hu, hdig⟩ := hd.getLast_isdigit
    have h := calcFileSize_digit_before_last d u 'B' hu hdig
    rw [stoi_numeral hd hn] at h
    rw [mul_one, wrapInt32_of_range (by omega) hn]
    exact h
  · have h := calcFileSize_unit_before_last d 'K' 'B' (by decide)
    rw [stoi_numeral hd hn] at h
    have hm : unitMultiplier 'K' = some 1024 := by decide
    rw [hm] at h
    exact h
  · have h := calcFileSize_unit_before_last d 'M' 'B' (by decide)
    rw [stoi_numeral hd hn] at h
    have hm : unitMultiplier 'M' = some 1048576 := by decide
    rw [hm] at h
    exact h

/-- The value `wrapInt32` keeps is in the range of `int`, differs from the true
value by a multiple of 2^32, and is the true value exactly when that one is in
the range. -/
theorem wrapInt32_spec (v : Int) :
    INT_MIN ≤ wrapInt32 v ∧ wrapInt32 v ≤ INT_MAX ∧
    (wrapInt32 v - v) % 4294967296 = 0 ∧
    (wrapInt32 v = v ↔ INT_MIN ≤ v ∧ v ≤ INT_MAX) := by
  unfold wrapInt32 INT_MIN INT_MAX
  omega

/-- C15, as stated, fails: the strings `"99999999999B"` and `"x5B"` have a digit
before their last character, and `calcFileSize` returns no integer for them: it
ends with the exception `stoi` throws. -/
theorem calcFileSize_digit_no_integer :
    calcFileSize "99999999999B".toList = Outcome.uncaught StoiError.out_of_range ∧
    calcFileSize "x5B".toList = Outcome.uncaught StoiError.invalid_argument := by
  decide

/-- C15, amended: when the character before the last one is a digit,
`calcFileSize` ends the way `stoi` does on the input without its last character,
whatever that character is: with the integer `stoi` reads, or with its exception;
`exit` is not called. So `"10K"`, `"10G"` and `"105"` give 10 and `"1024"`
gives 102. -/
theorem calcFileSize_drops_last (s : List Char) (u : Char)
    (hu : s.dropLast.getLast? = some u) (hd : isdigit u = true) :
    calcFileSize s = Outcome.ofStoi (stoi s.dropLast) ∧
    (∀ c : Char, calcFileSize (s.dropLast ++ [c]) = calcFileSize s) ∧
    (∀ code : Int, calcFileSize s ≠ Outcome.exit code) ∧
    calcFileSize "10K".toList = Outcome.ret 10 ∧
    calcFileSize "10G".toList = Outcome.ret 10 ∧
    calcFileSize "105".toList = Outcome.ret 10 ∧
    calcFileSize "1024".toList = Outcome.ret 102 := by
  have hne : s ≠ [] := by
    rintro rfl
    simp at hu
  have hkey : ∀ c : Char, calcFileSize (s.dropLast ++ [c]) = Outcome.ofStoi (stoi s.dropLast) := by
    intro c
    rw [calcFileSize_digit_before_last s.dropLast u c hu hd]
    cases stoi s.dropLast <;> rfl
  have hs : calcFileSize s = Outcome.ofStoi (stoi s.dropLast) := by
    have h := hkey (s.getLast hne)
    rwa [List.dropLast_append_getLast hne] at h
  refine ⟨hs, fun c => by rw [hkey c, hs], ?_, by decide, by decide, by decide, by decide⟩
  intro code
  rw [hs]
  cases stoi s.dropLast <;> simp [Outcome.ofStoi]

/-- Witness of C15 (amended) at `"105"`. -/
theorem calcFileSize_drops_last_witness :
    calcFileSize "105".toList = Outcome.ofStoi (stoi "10".toList) :=
  (calcFileSize_drops_last "105".toList '0' (by decide) (by decide)).1

/-! ## Overflow of the product -/

/-- C16: for a numeral of `n <= 2^31 - 1` followed by `B`, `KB` or `MB`, with
multiplier `m`, `calcFileSize` returns the `int` product: a value in the range of
`int` that differs from `n * m` by a multiple of 2^32, and that is `n * m` exactly
when `n * m <= 2^31 - 1`. For `MB` this is the case exactly up to `n = 2047`;
`"2048MB"` gives -2147483648, and the sender's `MaxBytes` is then that value
converted to `uint64_t`. -/
theorem calcFileSize_product_wraps (d : List Char) (n : Nat) (hd : IsNumeral d n)
    (hn : (n : Int) ≤ INT_MAX) :
    (∀ um ∈ acceptedUnits, ∃ r : Int,
      calcFileSize (d ++ um.1) = Outcome.ret r ∧
      INT_MIN ≤ r ∧ r ≤ INT_MAX ∧
      (r - (n : Int) * um.2) % 4294967296 = 0 ∧
      (r = (n : Int) * um.2 ↔ (n : Int) * um.2 ≤ INT_MAX)) ∧
    ((n : Int) * 1048576 ≤ INT_MAX ↔ n ≤ 2047) ∧
    calcFileSize "2047MB".toList = Outcome.ret 2146435072 ∧
    calcFileSize "2048MB".toList = Outcome.ret (-2147483648) ∧
    DLT.MaxBytes (some "2048MB".toList) = Outcome.ret 18446744071562067968 := by
  have hmax : INT_MAX = 2147483647 := rfl
  have hmin : INT_MIN = -2147483648 := rfl
  refine ⟨?_, by omega, by decide, by decide, by decide⟩
  intro um hum
  have hret := calcFileSize_numeral_unit hd hn um hum
  obtain ⟨h1, h2, h3, h4⟩ := wrapInt32_spec ((n : Int) * um.2)
  refine ⟨_, hret, h1, h2, h3, ?_⟩
  rw [h4]
  have hpos : 0 ≤ (n : Int) * um.2 := by
    simp only [acceptedUnits, List.mem_cons, List.mem_singleton, List.not_mem_nil,
      or_false] at hum
    rcases hum with rfl | rfl | rfl <;> simp only <;> omega
  constructor
  · intro h
    exact h.2
  · intro h
    exact ⟨by omega, h⟩

/-- Witness of C16 at the numeral `"2048"`, which fits an `int` while its product
with 1048576 does not. -/
theorem calcFileSize_product_wraps_witness :
    IsNumeral "2048".toList 2048 ∧
    ∃ r : Int, calcFileSize "2048MB".toList = Outcome.ret r ∧
      INT_MIN ≤ r ∧ r ≤ INT_MAX ∧
      (r - 2048 * 1048576) % 4294967296 = 0 ∧
      (r = 2048 * 1048576 ↔ (2048 : Int) * 1048576 ≤ INT_MAX) :=
  have hd : IsNumeral "2048".toList 2048 := ⟨by decide, by decide, by decide⟩
  ⟨hd, (calcFileSize_product_wraps "2048".toList 2048 hd (by decide)).1
    ("MB".toList, 1048576) (by simp [acceptedUnits])⟩

/-! ## Zero as a file size -/

/-- C17: for a numeral of `n` followed by `B`, `KB` or `MB`, with the product in
the range of `int`, `calcFileSize` returns the product, which is 0 exactly when
`n` is 0, and `MaxBytes` is that product: 0, the value that the other scripts
set with the comment that zero is unlimited, exactly when `n` is 0, and positive
exactly when `n` is positive. -/
theorem calcFileSize_zero_iff (d : List Char) (n : Nat) (hd : IsNumeral d n) :
    (∀ um ∈ acceptedUnits, (n : Int) * um.2 ≤ INT_MAX →
      calcFileSize (d ++ um.1) = Outcome.ret ((n : Int) * um.2) ∧
      (calcFileSize (d ++ um.1) = Outcome.ret 0 ↔ n = 0) ∧
      ∃ k : Nat, DLT.MaxBytes (some (d ++ um.1)) = Outcome.ret k ∧
        (k : Int) = (n : Int) * um.2 ∧ (k = 0 ↔ n = 0) ∧ (0 < k ↔ 0 < n)) ∧
    DLT.MaxBytes (some "0B".toList) = Outcome.ret 0 ∧
    DLT.MaxBytes (some "0KB".toList) = Outcome.ret 0 ∧
    DLT.MaxBytes (some "0MB".toList) = Outcome.ret 0 ∧
    Throughput.flow.sender.MaxBytes = 0 ∧
    Fairness.flow1.sender.MaxBytes = 0 ∧
    Fairness.flow2.sender.MaxBytes = 0 ∧
    Fairness.flowQuic.sender.MaxBytes = 0 := by
  have hmax : INT_MAX = 2147483647 := rfl
  have hmin : INT_MIN = -2147483648 := rfl
  refine ⟨?_, by decide, by decide, by decide, rfl, rfl, rfl, rfl⟩
  intro um hum hfit
  have hm : 1 ≤ um.2 := by
    simp only [acceptedUnits, List.mem_cons, List.mem_singleton, List.not_mem_nil,
      or_false] at hum
    rcases hum with rfl | rfl | rfl <;> simp
  have hnn : (0 : Int) ≤ (n : Int) := Int.natCast_nonneg n
  have hle : (n : Int) ≤ (n : Int) * um.2 := le_mul_of_one_le_right hnn hm
  have hn : (n : Int) ≤ INT_MAX := le_trans hle hfit
  have hpos : 0 ≤ (n : Int) * um.2 := le_trans hnn hle
  have hret : calcFileSize (d ++ um.1) = Outcome.ret ((n : Int) * um.2) := by
    rw [calcFileSize_numeral_unit hd hn um hum, wrapInt32_of_range (by omega) hfit]
  have hzero : (n : Int) * um.2 = 0 ↔ n = 0 := by
    constructor
    · intro h
      have : (n : Int) ≤ 0 := by rw [← h]; exact hle
      omega
    · rintro rfl
      simp
  refine ⟨hret, ?_, ((n : Int) * um.2).toNat, ?_, Int.toNat_of_nonneg hpos, ?_, ?_⟩
  · rw [hret]
    simp only [Outcome.ret.injEq]
    exact hzero
  · simp only [DLT.MaxBytes, DLT.calculatedFileSize, Option.getD_some, hret, Outcome.map,
      UintegerValue, Outcome.ret.injEq]
    congr 1
    rw [hmax] at hfit
    omega
  · rw [← hzero]
    omega
  · have h := hzero
    omega

/-- Witness of C17 at `"0KB"`. -/
theorem calcFileSize_zero_iff_witness :
    IsNumeral "0".toList 0 ∧ calcFileSize "0KB".toList = Outcome.ret 0 :=
  have hd : IsNumeral "0".toList 0 := ⟨by decide, by decide, by decide⟩
  ⟨hd, by
    have h := ((calcFileSize_zero_iff "0".toList 0 hd).1 ("KB".toList, 1024)
      (by simp [acceptedUnits]) (by decide)).1
    simpa using h⟩

/-! ## A unit without a number -/

/-- Whenever `calcFileSize` returns, `stoi` has read a number: from the input
without its last character, or from the input without its last two. -/
theorem calcFileSize_ret_stoi {s : List Char} {v : Int} (h : calcFileSize s = Outcome.ret v) :
    (∃ w, stoi s.dropLast = Except.ok w) ∨ (∃ w, stoi s.dropLast.dropLast = Except.ok w) := by
  unfold calcFileSize at h
  split at h
  · exact absurd h (by simp)
  · simp only at h
    split at h
    · exact absurd h (by simp)
    · split at h
      · split at h
        · rename_i w hs
          exact Or.inl ⟨w, hs⟩
        · exact absurd h (by simp)
      · split at h
        · exact absurd h (by simp)
        · split at h
          · rename_i w hs
            exact Or.inr ⟨w, hs⟩
          · exact absurd h (by simp)

/-- C18: `calcFileSize` returns only when `stoi` read a number in front of the
unit. For `"KB"` and `"MB"` the remainder is empty, `stoi` throws
`invalid_argument`, nothing is returned and `exit (1)` is not called. For a
numeral of `n <= 2^31 - 1` followed by `B`, `KB` or `MB`, a value is returned:
neither an exception nor `exit (1)` ends the call. -/
theorem calcFileSize_needs_number (d : List Char) (n : Nat) (hd : IsNumeral d n)
    (hn : (n : Int) ≤ INT_MAX) :
    (∀ (s : List Char) (v : Int), calcFileSize s = Outcome.ret v →
      (∃ w, stoi s.dropLast = Except.ok w) ∨ (∃ w, stoi s.dropLast.dropLast = Except.ok w)) ∧
    stoi [] = Except.error StoiError.invalid_argument ∧
    calcFileSize "KB".toList = Outcome.uncaught StoiError.invalid_argument ∧
    calcFileSize "MB".toList = Outcome.uncaught StoiError.invalid_argument ∧
    (∀ um ∈ acceptedUnits,
      (∃ v : Int, calcFileSize (d ++ um.1) = Outcome.ret v) ∧
      (∀ e, calcFileSize (d ++ um.1) ≠ Outcome.uncaught e) ∧
      (∀ code, calcFileSize (d ++ um.1) ≠ Outcome.exit code)) := by
  refine ⟨fun s v h => calcFileSize_ret_stoi h, rfl, by decide, by decide, ?_⟩
  intro um hum
  have hret := calcFileSize_numeral_unit hd hn um hum
  refine ⟨⟨_, hret⟩, ?_, ?_⟩
  · intro e
    rw [hret]
    simp
  · intro code
    rw [hret]
    simp

/-- Witness of C18 at `"10MB"`. -/
theorem calcFileSize_needs_number_witness :
    IsNumeral "10".toList 10 ∧ ∃ v : Int, calcFileSize "10MB".toList = Outcome.ret v :=
  have hd : IsNumeral "10".toList 10 := ⟨by decide, by decide, by decide⟩
  ⟨hd, ((calcFileSize_needs_number "10".toList 10 hd (by decide)).2.2.2.2
    ("MB".toList, 1048576) (by simp [acceptedUnits])).1⟩

/-! ## Destination of each sender -/

/-- The two TCP senders of the fairness script address their sink. -/
theorem Fairness.tcp_endpoints :
    Fairness.flow1.endpointsMatch ∧ Fairness.flow2.endpointsMatch := by
  unfold Flow.endpointsMatch
  decide

/-- C19: in the fairness script the QUIC sender is given `ueIpIface.GetAddress (0)`,
the address of the TCP UE, while the QUIC sink is installed on the QUIC UE, whose
address is `ueIpIface.GetAddress (1)`; port and socket factory do agree. Every
other sender of the four scripts has the address of the node of its sink, the
port of its sink and the socket factory of its sink. -/
theorem Fairness_quic_destination_mismatch :
    Fairness.flowQuic.sender.destination = GetAddress Fairness.ueIpIface 0 ∧
    GetAddress Fairness.ueIpIface 0 = some Node.tcpUeNodes0 ∧
    GetAddress Fairness.ueIpIface 1 = some Node.quicUeNodes0 ∧
    Fairness.flowQuic.sink.node = Node.quicUeNodes0 ∧
    Fairness.flowQuic.sender.destination ≠ some Fairness.flowQuic.sink.node ∧
    ¬ Fairness.flowQuic.endpointsMatch ∧
    Fairness.flowQuic.sender.destinationPort = Fairness.flowQuic.sink.port ∧
    Fairness.flowQuic.sender.socketFactory = Fairness.flowQuic.sink.socketFactory ∧
    Fairness.flow1.endpointsMatch ∧
    Fairness.flow2.endpointsMatch ∧
    Throughput.flow.endpointsMatch ∧
    (∀ size : Int, (DLT.flow size).endpointsMatch) ∧
    TwoQuic.flow1.endpointsMatch ∧
    TwoQuic.flow2.endpointsMatch := by
  refine ⟨rfl, rfl, rfl, rfl, by decide, ?_, rfl, rfl, Fairness.tcp_endpoints.1,
    Fairness.tcp_endpoints.2, ?_, ?_, ?_, ?_⟩
  · unfold Flow.endpointsMatch
    decide
  · unfold Flow.endpointsMatch
    decide
  · intro size
    exact ⟨rfl, rfl, rfl⟩
  · unfold Flow.endpointsMatch
    decide
  · unfold Flow.endpointsMatch
    decide

/-! ## What the outcome of the latency-tracking script depends on -/

/-- The global after the run is determined by the clock readings of the
deliveries. -/
theorem DLT.Run_eq_foldl_now (ds : List DLT.Delivery) (t : ℚ) :
    DLT.Run ds t = (ds.map DLT.Delivery.now).foldl (fun _ now => now) t := by
  unfold DLT.Run
  rw [List.foldl_map]
  rfl

/-- C20, as stated, fails: with no delivery at all, the script ends in `exit (1)`
for `--fileSize=10GB` and returns -1 after the error line without the flag, so
the outcome depends on the requested file size. -/
theorem DLT_outcome_depends_on_fileSize :
    DLT.main (some "10GB".toList) [] = Outcome.exit 1 ∧
    DLT.main none []
      = Outcome.ret
          ([⟨"ERROR: Failed to track arrival times. [lastArrivalTime = ", -1, "]"⟩], -1) ∧
    DLT.main (some "10GB".toList) [] ≠ DLT.main none [] := by
  have h1 : DLT.main (some "10GB".toList) [] = Outcome.exit 1 := by
    have hc : DLT.calculatedFileSize (some "10GB".toList) = Outcome.exit 1 := by decide
    unfold DLT.main
    rw [hc]
    rfl
  have h2 : DLT.main none []
      = Outcome.ret
          ([⟨"ERROR: Failed to track arrival times. [lastArrivalTime = ", -1, "]"⟩], -1) := by
    have hc : DLT.calculatedFileSize none = Outcome.ret 1048576 := by decide
    rw [DLT.main_of_ret none 1048576 hc]
    simp [DLT.report, DLT.Run, DLT.lastArrivalTime]
  refine ⟨h1, h2, ?_⟩
  rw [h1, h2]
  simp

/-- C20, amended: among the runs for which `calcFileSize` returns, the outcome is
determined by the clock readings of the deliveries: two such runs with the same
readings end alike, whatever the packet sizes and the file sizes; and a run with
at least one delivery (readings >= 0) prints the last reading and returns 0,
however few bytes were delivered. -/
theorem DLT_outcome_of_timestamps (flag1 flag2 : Option (List Char)) (v1 v2 : Int)
    (h1 : DLT.calculatedFileSize flag1 = Outcome.ret v1)
    (h2 : DLT.calculatedFileSize flag2 = Outcome.ret v2) :
    (∀ ds1 ds2 : List DLT.Delivery,
      ds1.map DLT.Delivery.now = ds2.map DLT.Delivery.now →
      DLT.main flag1 ds1 = DLT.main flag2 ds2) ∧
    (∀ (ds : List DLT.Delivery) (hne : ds ≠ []), (∀ d ∈ ds, 0 ≤ d.now) →
      DLT.main flag1 ds = Outcome.ret ([⟨"", (ds.getLast hne).now, ""⟩], 0)) := by
  constructor
  · intro ds1 ds2 hnow
    rw [DLT.main_of_ret flag1 v1 h1, DLT.main_of_ret flag2 v2 h2, DLT.Run_eq_foldl_now,
      DLT.Run_eq_foldl_now, hnow]
  · intro ds hne hclock
    rw [DLT.main_of_ret flag1 v1 h1, DLT.Run_getLast ds hne]
    have hneq : (ds.getLast hne).now ≠ -1 := by
      intro h
      have hpos := hclock _ (List.getLast_mem hne)
      rw [h] at hpos
      exact absurd hpos (by norm_num)
    simp [DLT.report, hneq]

/-- Witness of C20 (amended): 1 MB requested, a single packet of 512 bytes
delivered at 1.5 s. -/
theorem DLT_outcome_of_timestamps_witness :
    DLT.calculatedFileSize none = Outcome.ret 1048576 ∧
    DLT.main none [⟨512, 3 / 2⟩] = Outcome.ret ([⟨"", 3 / 2, ""⟩], 0) :=
  have hc : DLT.calculatedFileSize none = Outcome.ret 1048576 := by decide
  ⟨hc, (DLT_outcome_of_timestamps none none 1048576 1048576 hc hc).2 [⟨512, 3 / 2⟩]
    (by simp)
    (by
      intro d hd
      rw [List.mem_singleton] at hd
      rw [hd]
      norm_num)⟩

/-! ## The reported throughput and the exact quotient -/

/-- The rational 1/5000000 is not the value of a `double`: its denominator is not
a power of two. -/
theorem not_IsDouble_one_div_5000000 : ¬ IsDouble (1 / 5000000 : ℚ) := by
  rintro ⟨m, e, -, -, -, h⟩
  rcases le_or_lt 0 e with he | he
  · obtain ⟨k, rfl⟩ : ∃ k : ℕ, e = (k : ℤ) := ⟨e.toNat, by omega⟩
    rw [zpow_natCast] at h
    have hq : (5000000 : ℚ) * ((m : ℚ) * 2 ^ k) = 1 := by
      rw [← h]
      norm_num
    have hz : (5000000 : ℤ) * (m * 2 ^ k) = 1 := by exact_mod_cast hq
    generalize m * 2 ^ k = x at hz
    omega
  · obtain ⟨k, rfl⟩ : ∃ k : ℕ, e = -(k : ℤ) := ⟨(-e).toNat, by omega⟩
    rw [zpow_neg, zpow_natCast] at h
    have hk : (2 : ℚ) ^ k ≠ 0 := by positivity
    have hq : (2 : ℚ) ^ k = 5000000 * (m : ℚ) := by
      field_simp at h
      linarith
    have hz : (2 : ℤ) ^ k = 5000000 * m := by exact_mod_cast hq
    have h5 : (5 : ℤ) ∣ 2 ^ k := ⟨1000000 * m, by rw [hz]; ring⟩
    have hp : Prime (5 : ℤ) := Int.prime_iff_natAbs_prime.mpr (by norm_num)
    have h52 : (5 : ℤ) ∣ 2 := hp.dvd_of_dvd_pow h5
    omega

/-- With a rounding that leaves `double` values alone, for a byte count below 2^53
the conversion of the count, the product with 8.0 and the divisor are exact, so
that the throughput is the exact quotient rounded once. -/
theorem throughput_eq_rnd {rnd : ℚ → ℚ} (hrnd : IsRounding rnd) (b : Nat) (hb : b < 2 ^ 53) :
    throughput rnd 40 b = rnd ((b : ℚ) * 8 / 40000000) := by
  have hcount : rnd (b : ℚ) = b := hrnd.fixes _ (IsDouble_of_nat b hb)
  have hprod : rnd ((b : ℚ) * 8) = (b : ℚ) * 8 := by
    apply hrnd.fixes
    refine ⟨(b : ℤ), 3, ?_, by norm_num, by norm_num, by norm_num⟩
    rw [abs_of_nonneg (by positivity)]
    exact_mod_cast hb
  have hd1 : rnd (40 * 1000) = 40000 := by
    have h := hrnd.fixes _ (IsDouble_of_nat 40000 (by norm_num))
    norm_num at h ⊢
    exact h
  have hd2 : rnd (40000 * 1000) = 40000000 := by
    have h := hrnd.fixes _ (IsDouble_of_nat 40000000 (by norm_num))
    norm_num at h ⊢
    exact h
  unfold throughput
  rw [hd1, hd2, hcount, hprod]

/-- C3, as stated, fails at one received byte: the exact quotient
(1 * 8) / (40 * 10^6) = 1/5000000 is not the value of any `double`, so no
rounding makes the reported `double` equal to it. -/
theorem throughput_not_exact :
    ¬ IsDouble (((1 : ℕ) : ℚ) * 8 / (40 * 10 ^ 6)) ∧
    ¬ ∃ rnd : ℚ → ℚ, IsDouble (throughput rnd 40 1) ∧
        throughput rnd 40 1 = ((1 : ℕ) : ℚ) * 8 / (40 * 10 ^ 6) := by
  have hval : (((1 : ℕ) : ℚ) * 8 / (40 * 10 ^ 6)) = 1 / 5000000 := by norm_num
  rw [hval]
  refine ⟨not_IsDouble_one_div_5000000, ?_⟩
  rintro ⟨rnd, hdouble, heq⟩
  rw [heq] at hdouble
  exact not_IsDouble_one_div_5000000 hdouble

/-- C3, amended: with a rounding that is monotone and leaves `double` values
alone, for a received byte count `b` below 2^53 the throughput that both scripts
report is the exact quotient (b * 8) / (duration * 10^6) rounded to a `double`,
and is that quotient itself whenever it is the value of a `double`; the duration
is the argument of `Simulator::Stop`, 40 s, for the flow of Throughput-over-LTE
and for the three flows of 2TCPs-Fairness-over-LTE, the QUIC flow that starts at
2 s included. -/
theorem throughput_rounded (rnd : ℚ → ℚ) (hrnd : IsRounding rnd) (b : Nat)
    (hb : b < 2 ^ 53) :
    throughput rnd 40 b = rnd ((b : ℚ) * 8 / (40 * 10 ^ 6)) ∧
    (IsDouble ((b : ℚ) * 8 / (40 * 10 ^ 6)) →
      throughput rnd 40 b = (b : ℚ) * 8 / (40 * 10 ^ 6)) ∧
    Throughput.experiment.stopTime = 40 ∧
    Throughput.main rnd b
      = ([⟨"Total Bytes Received: ", (b : ℚ), ""⟩,
          ⟨"Throughput: ",
            rnd ((b : ℚ) * 8 / (Throughput.experiment.stopTime * 10 ^ 6)), " Mbps"⟩], 0) ∧
    Fairness.experiment.stopTime = 40 ∧
    Fairness.flowQuic.sender.start = 2 ∧
    (∀ (run : List Fairness.Delivery) (sink : Fairness.SinkApp),
      Fairness.GetTotalRx run sink = b →
      ∃ line : StdoutLine, Fairness.reported rnd run sink = some line ∧
        line.value = rnd ((b : ℚ) * 8 / (Fairness.experiment.stopTime * 10 ^ 6))) := by
  have hden : ((40 : ℚ) * 10 ^ 6) = 40000000 := by norm_num
  have hthr : throughput rnd 40 b = rnd ((b : ℚ) * 8 / (40 * 10 ^ 6)) := by
    rw [hden]
    exact throughput_eq_rnd hrnd b hb
  have hs1 : Throughput.experiment.stopTime = 40 := rfl
  have hs2 : Fairness.experiment.stopTime = 40 := rfl
  refine ⟨hthr, ?_, hs1, ?_, hs2, rfl, ?_⟩
  · intro hdouble
    rw [hthr]
    exact hrnd.fixes _ hdouble
  · rw [hs1, ← hthr]
    rfl
  · intro run sink hrx
    refine ⟨_, Fairness.reported_eq rnd run sink, ?_⟩
    rw [hs2, ← hthr, hrx]
    rfl

/-- Witness of C3 (amended), with the rounding that changes nothing: 5000000
bytes in 40 s are reported as 1 Mbit/s. -/
theorem throughput_rounded_witness :
    IsRounding (fun q => q) ∧ throughput (fun q => q) 40 5000000 = 1 :=
  have hid : IsRounding (fun q => q) := ⟨fun _ _ h => h, fun _ _ => rfl⟩
  ⟨hid, by
    have h := (throughput_rounded (fun q => q) hid 5000000 (by norm_num)).1
    rw [h]
    norm_num⟩

end QuicLte
